import Mathlib

/-
Shallow embedding of the B-spline core in src/library/tinyspline.c.

Modelling conventions:
* `float` values are modelled as exact rationals (`ℚ`); the algorithms of the
  library are piecewise rational, so every arithmetic step of the C code has a
  direct rational counterpart.  Properties of binary rounding itself are out of
  scope of this development.
* `size_t` arithmetic is modelled on `Nat` with an explicit wrap modulo `2^64`
  exactly where the C code can overflow; conversion to `int` is modelled as the
  usual two's-complement reinterpretation of the low 32 bits.
* `malloc` never fails in the model; the `TS_MALLOC` path is therefore
  unreachable here.
* output parameters become components of the returned pair; the C code resets
  the output to its zeroed default state on every error path, which the model
  mirrors by returning the default value.
-/

/-- Modelled from the spec: the tolerance constants live in tinyspline.h, which
is not part of src/.  The spec gives them as `≈ 1e-7` absolute and `≈ 1e-5`
relative. -/
def FLT_MAX_ABS_ERROR : ℚ := 1 / 10 ^ 7

/-- Modelled from the spec: relative tolerance constant from tinyspline.h
(missing from src/), `≈ 1e-5` per the spec. -/
def FLT_MAX_REL_ERROR : ℚ := 1 / 10 ^ 5

/-- Modelled from the spec: the error enumeration lives in tinyspline.h, which
is not part of src/.  The code only relies on `TS_SUCCESS = 0`, success codes
being `≥ 0` and error codes being `< 0`; the concrete negative values below are
a choice of the model. -/
def TS_SUCCESS : Int := 0

def TS_MALLOC : Int := -1

def TS_OVER_UNDERFLOW : Int := -2

def TS_DIM_ZERO : Int := -3

def TS_DEG_GE_NCTRLP : Int := -4

def TS_U_UNDEFINED : Int := -5

def TS_MULTIPLICITY : Int := -6

def TS_INPUT_EQ_OUTPUT : Int := -7

/-- Modelling artifact: the `while` loop of `ts_bspline_to_beziers` is modelled
with explicit fuel; running out of fuel returns this (negative) code, so a
successful return of the model corresponds to a terminating successful run of
the C loop. -/
def TS_FUEL_EXHAUSTED : Int := -100

/-- Modelled from the spec: spline types from tinyspline.h (missing from
src/): `NONE`, `OPENED`, `CLAMPED`. -/
inductive tsBSplineType where
  | TS_NONE : tsBSplineType
  | TS_OPENED : tsBSplineType
  | TS_CLAMPED : tsBSplineType
deriving DecidableEq

/-- `ts_fequals` from tinyspline.c: absolute tolerance first, then relative
error with division by the larger magnitude. -/
def ts_fequals (x y : ℚ) : Bool :=
  if |x - y| ≤ FLT_MAX_ABS_ERROR then
    true
  else
    let r := if |x| > |y| then |(x - y) / x| else |(x - y) / y|
    decide (r ≤ FLT_MAX_REL_ERROR)

/-- The `tsBSpline` struct (tinyspline.h is missing from src/; the fields and
their meaning are exactly those used throughout tinyspline.c).  The two buffer
pointers become lists of rationals. -/
structure tsBSpline where
  deg : Nat
  order : Nat
  dim : Nat
  n_ctrlp : Nat
  n_knots : Nat
  ctrlp : List ℚ
  knots : List ℚ
deriving DecidableEq

/-- The `tsDeBoorNet` struct; the `result` pointer into `points` is modelled
as an element offset. -/
structure tsDeBoorNet where
  u : ℚ
  k : Nat
  s : Nat
  h : Nat
  dim : Nat
  n_points : Nat
  points : List ℚ
  result : Nat
deriving DecidableEq

/-- `ts_bspline_default`: the empty zeroed state. -/
def ts_bspline_default : tsBSpline :=
  { deg := 0, order := 0, dim := 0, n_ctrlp := 0, n_knots := 0, ctrlp := [], knots := [] }

/-- `ts_deboornet_default`: the empty zeroed state. -/
def ts_deboornet_default : tsDeBoorNet :=
  { u := 0, k := 0, s := 0, h := 0, dim := 0, n_points := 0, points := [], result := 0 }

/-- The curve point referenced by the `result` pointer of a net: `dim` scalars
at offset `result` in `points`. -/
def ts_deboornet_result (net : tsDeBoorNet) : List ℚ :=
  (net.points.drop net.result).take net.dim

/-- Wrap to `size_t` (64-bit). -/
def w64 (a : Nat) : Nat := a % 2 ^ 64

/-- `size_t` addition of a signed offset, wrapping modulo `2^64`. -/
def sadd (a : Nat) (n : Int) : Nat := (((a : Int) + n) % (2 ^ 64 : Int)).toNat

/-- `size_t` subtraction `a - b`, wrapping modulo `2^64`. -/
def wsub64 (a b : Nat) : Nat := (w64 a + 2 ^ 64 - w64 b) % 2 ^ 64

/-- `size_t` negation `-a`, wrapping modulo `2^64`. -/
def wneg64 (a : Nat) : Nat := (2 ^ 64 - w64 a) % 2 ^ 64

/-- Reinterpretation of a `size_t` value as a (32-bit, two's complement)
`int`. -/
def int_of_size_t (v : Nat) : Int :=
  if v % 2 ^ 32 < 2 ^ 31 then ((v % 2 ^ 32 : Nat) : Int)
  else ((v % 2 ^ 32 : Nat) : Int) - 2 ^ 32

/-- Step 1 of `ts_bspline_evaluate`: the span search.  Walks the knots from
index 0; a tolerantly equal knot increments the multiplicity `s` and the walk
continues; the walk stops at the first knot strictly above `u` that is not
tolerantly equal.  Returns `(k, s)` exactly as left in the net by the C loop. -/
def ts_eval_scan (u : ℚ) : List ℚ → Nat × Nat
  | [] => (0, 0)
  | t :: ts =>
    if ts_fequals u t then
      let p := ts_eval_scan u ts
      (p.1 + 1, p.2 + 1)
    else if u < t then (0, 0)
    else
      let p := ts_eval_scan u ts
      (p.1 + 1, p.2)

/-- One level of the de Boor recursion (the body of the `r` loop of
`ts_bspline_evaluate`): from row `r-1` (`prev`, points `fstIdx+r-1 … lstIdx`)
compute row `r` (points `fstIdx+r … lstIdx`), each point a convex combination
of two consecutive points of the previous row with coefficient
`a = (u - u_i) / (u_{i+deg-r+1} - u_i)`. -/
def ts_deboor_row (knots : List ℚ) (u : ℚ) (dim deg fstIdx lstIdx r : Nat)
    (prev : List ℚ) : List ℚ :=
  ((List.range (lstIdx + 1 - (fstIdx + r))).map (fun j =>
    let i := fstIdx + r + j
    let ui := knots.getD i 0
    let a := (u - ui) / (knots.getD (i + deg - r + 1) 0 - ui)
    (List.range dim).map (fun d =>
      (1 - a) * prev.getD (j * dim + d) 0 + a * prev.getD ((j + 1) * dim + d) 0))).flatten

/-- Rows `0 … h` of the triangular de Boor net, row 0 being the affected
control points.  The flat buffer of the C code stores exactly the
concatenation of these rows (each row is written sequentially after the
previous one). -/
def ts_deboor_rows (knots : List ℚ) (u : ℚ) (dim deg fstIdx lstIdx : Nat)
    (row0 : List ℚ) : Nat → List (List ℚ)
  | 0 => [row0]
  | r + 1 =>
    let rs := ts_deboor_rows knots u dim deg fstIdx lstIdx row0 r
    rs ++ [ts_deboor_row knots u dim deg fstIdx lstIdx (r + 1) (rs.getLastD [])]

/-- `ts_bspline_evaluate` from tinyspline.c.  Returns the C return value
(negative error, or classification 0/1/2) together with the output net; every
error path leaves the net in the default zeroed state. -/
def ts_bspline_evaluate (b : tsBSpline) (u : ℚ) : Int × tsDeBoorNet :=
  let n_knots := b.n_knots
  let scanRes := ts_eval_scan u (b.knots.take n_knots)
  let K := scanRes.1
  let s := scanRes.2
  let deg := b.deg
  if K = 0 then (TS_U_UNDEFINED, ts_deboornet_default)
  else if K = n_knots ∧ s = 0 then (TS_U_UNDEFINED, ts_deboornet_default)
  else if s ≤ deg ∧ (K ≤ deg ∨ K > n_knots - deg + s - 1) then
    (TS_U_UNDEFINED, ts_deboornet_default)
  else
    let dim := b.dim
    let k := K - 1
    let uk := b.knots.getD k 0
    let u2 := if ts_fequals u uk then uk else u
    let h := if deg < s then 0 else deg - s
    let order := b.order
    if order < s then (TS_MULTIPLICITY, ts_deboornet_default)
    else if s = order then
      if k = deg ∨ k = n_knots - 1 then
        let fromIdx := if k = deg then 0 else (k - s) * dim
        (1, { u := u2, k := k, s := s, h := h, dim := dim, n_points := 1,
              points := (b.ctrlp.drop fromIdx).take dim, result := 0 })
      else
        (2, { u := u2, k := k, s := s, h := h, dim := dim, n_points := 2,
              points := (b.ctrlp.drop ((k - s) * dim)).take (2 * dim), result := dim })
    else
      let fstIdx := k - deg
      let lstIdx := k - s
      let N := lstIdx - fstIdx + 1
      let npts := N * (N + 1) / 2
      let row0 := (b.ctrlp.drop (fstIdx * dim)).take (N * dim)
      let rows := ts_deboor_rows b.knots u2 dim deg fstIdx lstIdx row0 h
      (0, { u := u2, k := k, s := s, h := h, dim := dim, n_points := npts,
            points := rows.flatten, result := (npts - 1) * dim })

/-- The knot-vector generation of `ts_bspline_setup_knots` (the three loops),
expressed per index: `TS_NONE` keeps the old knots, `TS_OPENED` is uniform
over `[0,1]`, `TS_CLAMPED` writes `order` zeros, then interior knots
`numerator / dominator` with `dominator = n_knots - 2*deg - 1`, then `order`
ones. -/
def ts_knots_setup (type : tsBSplineType) (deg order n_knots : Nat)
    (old : List ℚ) : List ℚ :=
  match type with
  | .TS_NONE => old
  | .TS_OPENED =>
    List.ofFn (fun i : Fin n_knots => ((i : Nat) : ℚ) / (((n_knots - 1 : Nat)) : ℚ))
  | .TS_CLAMPED =>
    List.ofFn (fun i : Fin n_knots =>
      if (i : Nat) < order then 0
      else if (i : Nat) < n_knots - order then
        (((i : Nat) - order + 1 : Nat) : ℚ) / (((n_knots - 2 * deg - 1 : Nat)) : ℚ)
      else 1)

/-- `ts_bspline_setup_knots` (value form, the aliased `original == result`
path; the copying path only adds a deep copy, which is the identity on
values). -/
def ts_bspline_setup_knots (b : tsBSpline) (type : tsBSplineType) : tsBSpline :=
  { b with knots := ts_knots_setup type b.deg b.order b.n_knots b.knots }

/-- `ts_bspline_new` from tinyspline.c.  The control points are left
uninitialized by the C code; the model fills them with zeros (no claim depends
on their values). -/
def ts_bspline_new (deg dim n_ctrlp : Nat) (type : tsBSplineType) :
    Int × tsBSpline :=
  if dim < 1 then (TS_DIM_ZERO, ts_bspline_default)
  else if n_ctrlp ≤ deg then (TS_DEG_GE_NCTRLP, ts_bspline_default)
  else
    let order := w64 (deg + 1)
    if order < deg then (TS_OVER_UNDERFLOW, ts_bspline_default)
    else
      let n_knots := w64 (n_ctrlp + order)
      if n_knots < n_ctrlp then (TS_OVER_UNDERFLOW, ts_bspline_default)
      else
        let b0 : tsBSpline :=
          { deg := deg, order := order, dim := dim, n_ctrlp := n_ctrlp,
            n_knots := n_knots, ctrlp := List.replicate (w64 (n_ctrlp * dim)) 0,
            knots := List.replicate n_knots 0 }
        (TS_SUCCESS, ts_bspline_setup_knots b0 type)

/-- `ts_bspline_copy` (value form): a deep copy is the identity on values.
The `TS_INPUT_EQ_OUTPUT` aliasing error concerns pointer identity, which has
no counterpart in the value model. -/
def ts_bspline_copy (b : tsBSpline) : Int × tsBSpline := (TS_SUCCESS, b)

/-- Write `src` into `dst` at element offset `off` (the effect of a `memcpy` /
`memmove` into a buffer, for in-bounds writes). -/
def listWrite (dst : List ℚ) (off : Nat) (src : List ℚ) : List ℚ :=
  dst.take off ++ src ++ dst.drop (off + src.length)

/-- `ts_bspline_resize` from tinyspline.c (value form; the aliased and
non-aliased paths agree on all initialized data, and the model, like
`ts_bspline_new`, fills uninitialized slots with zeros). -/
def ts_bspline_resize (b : tsBSpline) (n : Int) (back : Nat) : Int × tsBSpline :=
  if n = 0 then (TS_SUCCESS, b)
  else
    let deg := b.deg
    let n_ctrlp := b.n_ctrlp
    let new_n_ctrlp := sadd n_ctrlp n
    if new_n_ctrlp ≤ deg then (TS_DEG_GE_NCTRLP, ts_bspline_default)
    else if n < 0 ∧ n_ctrlp < new_n_ctrlp then (TS_OVER_UNDERFLOW, ts_bspline_default)
    else if 0 < n ∧ new_n_ctrlp < n_ctrlp then (TS_OVER_UNDERFLOW, ts_bspline_default)
    else
      let dim := b.dim
      let n_knots := b.n_knots
      let new_n_knots := sadd n_knots n
      let min_n_ctrlp := if n < 0 then new_n_ctrlp else n_ctrlp
      let min_n_knots := if n < 0 then new_n_knots else n_knots
      let res := ts_bspline_new deg dim new_n_ctrlp tsBSplineType.TS_NONE
      if res.1 < 0 then res
      else
        let r := res.2
        let fromSkipC := if back = 0 ∧ n < 0 then (-n).toNat * dim else 0
        let toSkipC := if back = 0 ∧ 0 < n then n.toNat * dim else 0
        let fromSkipK := if back = 0 ∧ n < 0 then (-n).toNat else 0
        let toSkipK := if back = 0 ∧ 0 < n then n.toNat else 0
        let ctrlp2 := listWrite r.ctrlp toSkipC ((b.ctrlp.drop fromSkipC).take (min_n_ctrlp * dim))
        let knots2 := listWrite r.knots toSkipK ((b.knots.drop fromSkipK).take min_n_knots)
        (TS_SUCCESS, { r with ctrlp := ctrlp2, knots := knots2 })

/-- Cursor position of the `from` pointer of loop a) in
`ts_internal_bspline_insert_knot` after `i` iterations: the stride starts at
`N*dim` and shrinks by `dim` each iteration, so the cursor visits the first
point of each triangle row. -/
def ts_insert_offA (dim N : Nat) : Nat → Nat
  | 0 => 0
  | m + 1 => ts_insert_offA dim N m + (N - m) * dim

/-- Loop a) of `ts_internal_bspline_insert_knot`: gather `cnt` points
(`dim` scalars each) from the net buffer, starting at `off`, advancing by a
stride that starts at `stride` and shrinks by `dim` per iteration. -/
def ts_insert_gatherA (points : List ℚ) (dim : Nat) : Nat → Nat → Nat → List ℚ
  | 0, _, _ => []
  | m + 1, off, stride =>
    ((points.drop off).take dim) ++
      ts_insert_gatherA points dim m (off + stride) (stride - dim)

/-- Loop c) of `ts_internal_bspline_insert_knot`: gather `cnt` points walking
backwards through the net buffer, the (negative) stride shrinking by `dim`
per iteration. -/
def ts_insert_gatherC (points : List ℚ) (dim : Nat) : Nat → Int → Int → List ℚ
  | 0, _, _ => []
  | m + 1, off, stride =>
    ((points.drop off.toNat).take dim) ++
      ts_insert_gatherC points dim m (off + stride) (stride - dim)

/-- `ts_internal_bspline_insert_knot` from tinyspline.c: resize by `n` at the
back, copy the left/right control points and knots from the original spline,
fill the middle control points from the de Boor net (loops a, b, c) and write
`n` copies of `net.u` into the knot slots `k+1 … k+n`. -/
def ts_internal_bspline_insert_knot (b : tsBSpline) (net : tsDeBoorNet)
    (n : Nat) : Int × tsBSpline :=
  if b.order < net.s + n then (TS_MULTIPLICITY, ts_bspline_default)
  else if 2 ^ 31 ≤ n % 2 ^ 32 then (TS_OVER_UNDERFLOW, ts_bspline_default)
  else
    let rr := ts_bspline_resize b (n : Int) 1
    if rr.1 < 0 then rr
    else if n = 0 then (TS_SUCCESS, rr.2)
    else
      let res := rr.2
      let deg := b.deg
      let dim := b.dim
      let k := net.k
      let N := net.h + 1
      let cidx := k - deg + N
      let kidx := k + 1
      if 2 ^ 31 ≤ N * dim % 2 ^ 32 then (TS_OVER_UNDERFLOW, ts_bspline_default)
      else if (N - n + 1) * dim % 2 ^ 32 = 0 ∨ 2 ^ 31 < (N - n + 1) * dim % 2 ^ 32 then
        (TS_OVER_UNDERFLOW, ts_bspline_default)
      else
        let c1 := listWrite res.ctrlp 0 (b.ctrlp.take ((k - deg) * dim))
        let c2 := listWrite c1 ((cidx + n) * dim)
          ((b.ctrlp.drop (cidx * dim)).take ((res.n_ctrlp - n - cidx) * dim))
        let c3 := listWrite c2 ((k - deg) * dim)
          (ts_insert_gatherA net.points dim n 0 (N * dim))
        let c4 := listWrite c3 ((k - deg + n) * dim)
          ((net.points.drop (ts_insert_offA dim N n)).take ((N - n) * dim))
        let c5 := listWrite c4 ((k - deg + N) * dim)
          (ts_insert_gatherC net.points dim n
            ((ts_insert_offA dim N n : Int) - (dim : Int))
            (-(((N - n + 1) * dim : Nat) : Int)))
        let k1 := listWrite res.knots 0 (b.knots.take (k + 1))
        let k2 := listWrite k1 (kidx + n)
          ((b.knots.drop kidx).take (res.n_knots - n - kidx))
        let k3 := listWrite k2 (k + 1) (List.replicate n net.u)
        (TS_SUCCESS, { res with ctrlp := c5, knots := k3 })

/-- `ts_bspline_insert_knot` from tinyspline.c: evaluate, then insert using
the net; the returned index is `net.k + n` on success and `0` on failure. -/
def ts_bspline_insert_knot (b : tsBSpline) (u : ℚ) (n : Nat) :
    Int × tsBSpline × Nat :=
  let ev := ts_bspline_evaluate b u
  if 0 ≤ ev.1 then
    let ins := ts_internal_bspline_insert_knot b ev.2 n
    (ins.1, ins.2, if 0 ≤ ins.1 then ev.2.k + n else 0)
  else (ev.1, ts_bspline_default, 0)

/-- `ts_bspline_split` from tinyspline.c: evaluate at `u`; classifications 1
and 2 return a copy with `k = net.k`; classification 0 inserts `net.h + 1`
knots with `k = net.k + net.h + 1`; errors propagate with the output zeroed. -/
def ts_bspline_split (b : tsBSpline) (u : ℚ) : Int × tsBSpline × Nat :=
  let ev := ts_bspline_evaluate b u
  if 1 ≤ ev.1 then
    let cp := ts_bspline_copy b
    (cp.1, cp.2, if 0 ≤ cp.1 then ev.2.k else 0)
  else if ev.1 = 0 then
    let ins := ts_internal_bspline_insert_knot b ev.2 (ev.2.h + 1)
    (ins.1, ins.2, if 0 ≤ ins.1 then ev.2.k + ev.2.h + 1 else 0)
  else (ev.1, ts_bspline_default, 0)

/-- The `while` loop of `ts_bspline_to_beziers`, with explicit fuel: while
`k < n_knots - order`, split at `knots[k]` and continue from the returned
index plus one. -/
def ts_bspline_to_beziers_loop (order : Nat) :
    Nat → tsBSpline → Nat → Int × tsBSpline
  | 0, bez, _ => (TS_FUEL_EXHAUSTED, bez)
  | f + 1, bez, k =>
    if k < bez.n_knots - order then
      let sp := ts_bspline_split bez (bez.knots.getD k 0)
      if sp.1 < 0 then (sp.1, sp.2.1)
      else ts_bspline_to_beziers_loop order f sp.2.1 (sp.2.2 + 1)
    else (TS_SUCCESS, bez)

/-- `ts_bspline_to_beziers` from tinyspline.c: fix up the two ends if their
knots do not reach full multiplicity (split and trim), then repeatedly split
at every interior knot.  `fuel` bounds the number of loop iterations (a model
artifact; the C loop is unbounded). -/
def ts_bspline_to_beziers (b : tsBSpline) (fuel : Nat) : Int × tsBSpline :=
  let deg := b.deg
  let order := b.order
  let u_min := b.knots.getD deg 0
  let s1 :=
    if ts_fequals (b.knots.getD 0 0) u_min then (TS_SUCCESS, b)
    else
      let sp := ts_bspline_split b u_min
      if sp.1 < 0 then (sp.1, sp.2.1)
      else
        let rz := int_of_size_t ((wneg64 deg + wsub64 (w64 (deg * 2)) sp.2.2) % 2 ^ 64)
        ts_bspline_resize sp.2.1 rz 0
  if s1.1 < 0 then s1
  else
    let b1 := s1.2
    let u_max := b1.knots.getD (b1.n_knots - order) 0
    let s2 :=
      if ts_fequals (b1.knots.getD (b1.n_knots - 1) 0) u_max then (TS_SUCCESS, b1)
      else
        let sp := ts_bspline_split b1 u_max
        if sp.1 < 0 then (sp.1, sp.2.1)
        else
          let rz := int_of_size_t
            ((wneg64 deg + wsub64 sp.2.2 (wsub64 sp.2.1.n_knots order)) % 2 ^ 64)
          ts_bspline_resize sp.2.1 rz 1
    if s2.1 < 0 then s2
    else ts_bspline_to_beziers_loop order fuel s2.2 order

/-- `ts_bspline_equals` from tinyspline.c: compare the scalar fields, then the
first `n_ctrlp` scalars of the control-point buffers (note: not
`n_ctrlp * dim` scalars), then all `n_knots` knots, all under `ts_fequals`. -/
def ts_bspline_equals (x y : tsBSpline) : Int :=
  if x.deg ≠ y.deg ∨ x.order ≠ y.order ∨ x.dim ≠ y.dim ∨
      x.n_ctrlp ≠ y.n_ctrlp ∨ x.n_knots ≠ y.n_knots then 0
  else if ((List.range x.n_ctrlp).all fun i =>
        ts_fequals (x.ctrlp.getD i 0) (y.ctrlp.getD i 0)) ∧
      ((List.range x.n_knots).all fun i =>
        ts_fequals (x.knots.getD i 0) (y.knots.getD i 0)) then 1
  else 0

/-- The four structural invariants of the spec (§3) for a `tsBSpline`. -/
def ts_bspline_inv (b : tsBSpline) : Prop :=
  b.order = b.deg + 1 ∧ b.n_knots = b.n_ctrlp + b.order ∧
    b.deg < b.n_ctrlp ∧ 1 ≤ b.dim

/-- Well-formedness: the structural invariants plus agreement of the buffer
lengths with the counts, and the `size_t` representability bounds. -/
def ts_bspline_wf (b : tsBSpline) : Prop :=
  ts_bspline_inv b ∧ b.ctrlp.length = b.n_ctrlp * b.dim ∧
    b.knots.length = b.n_knots ∧ b.n_knots < 2 ^ 64 ∧ b.dim < 2 ^ 64

/-- A valid spline: well-formed with a weakly increasing knot vector. -/
def ts_bspline_valid (b : tsBSpline) : Prop :=
  ts_bspline_wf b ∧ b.knots.Pairwise (· ≤ ·)

instance (b : tsBSpline) : Decidable (ts_bspline_inv b) := by
  unfold ts_bspline_inv; infer_instance

instance (b : tsBSpline) : Decidable (ts_bspline_wf b) := by
  unfold ts_bspline_wf; infer_instance

instance (b : tsBSpline) : Decidable (ts_bspline_valid b) := by
  unfold ts_bspline_valid; infer_instance

/-- A clamped spline: valid, with the knot vector produced by the
`TS_CLAMPED` branch of `ts_bspline_setup_knots`. -/
def ts_bspline_clamped (b : tsBSpline) : Prop :=
  ts_bspline_valid b ∧
    b.knots = ts_knots_setup tsBSplineType.TS_CLAMPED b.deg b.order b.n_knots []

instance (b : tsBSpline) : Decidable (ts_bspline_clamped b) := by
  unfold ts_bspline_clamped; infer_instance

/-- The portion of well-formedness used when chaining operations: the four
structural invariants, agreement of the knot buffer length with `n_knots`,
and the `size_t` representability of `n_knots`. -/
def ts_bspline_sane (b : tsBSpline) : Prop :=
  ts_bspline_inv b ∧ b.knots.length = b.n_knots ∧ b.n_knots < 2 ^ 64

instance (b : tsBSpline) : Decidable (ts_bspline_sane b) := by
  unfold ts_bspline_sane; infer_instance

theorem ts_fequals_refl (x : ℚ) : ts_fequals x x = true := by
  unfold ts_fequals
  rw [if_pos]
  rw [sub_self, abs_zero]
  norm_num [FLT_MAX_ABS_ERROR]

theorem ts_fequals_iff (x y : ℚ) :
    ts_fequals x y = true ↔
      |x - y| ≤ FLT_MAX_ABS_ERROR ∨
        |x - y| ≤ FLT_MAX_REL_ERROR * max |x| |y| := by
  unfold ts_fequals
  by_cases habs : |x - y| ≤ FLT_MAX_ABS_ERROR
  · simp [habs]
  · rw [if_neg habs]
    have hmax0 : 0 < max |x| |y| := by
      by_contra h0
      push_neg at h0
      have hx0 : |x| = 0 :=
        le_antisymm (le_trans (le_max_left _ _) h0) (abs_nonneg _)
      have hy0 : |y| = 0 :=
        le_antisymm (le_trans (le_max_right _ _) h0) (abs_nonneg _)
      rw [abs_eq_zero] at hx0 hy0
      apply habs
      rw [hx0, hy0, sub_zero, abs_zero]
      norm_num [FLT_MAX_ABS_ERROR]
    have hr : (if |x| > |y| then |(x - y) / x| else |(x - y) / y|) =
        |x - y| / max |x| |y| := by
      by_cases hxy : |x| > |y|
      · rw [if_pos hxy, abs_div, max_eq_left hxy.le]
      · rw [if_neg hxy, abs_div, max_eq_right (not_lt.mp hxy)]
    simp only [decide_eq_true_eq]
    rw [hr, div_le_iff₀ hmax0, or_iff_right habs]

theorem ts_fequals_mono_left {u t t2 : ℚ} (h : ts_fequals u t = true)
    (h1 : t ≤ t2) (h2 : t2 ≤ u) : ts_fequals u t2 = true := by
  rw [ts_fequals_iff] at h ⊢
  have ht : t ≤ u := le_trans h1 h2
  rw [abs_of_nonneg (sub_nonneg.mpr ht)] at h
  rw [abs_of_nonneg (sub_nonneg.mpr h2)]
  have hR : (0 : ℚ) ≤ FLT_MAX_REL_ERROR := by norm_num [FLT_MAX_REL_ERROR]
  have hR1 : FLT_MAX_REL_ERROR < 1 := by norm_num [FLT_MAX_REL_ERROR]
  rcases h with h | h
  · exact Or.inl (by linarith)
  · right
    rcases le_total |t| |u| with hc | hc
    · rw [max_eq_left hc] at h
      calc u - t2 ≤ u - t := by linarith
        _ ≤ FLT_MAX_REL_ERROR * |u| := h
        _ ≤ FLT_MAX_REL_ERROR * max |u| |t2| :=
          mul_le_mul_of_nonneg_left (le_max_left _ _) hR
    · rw [max_eq_right hc] at h
      rcases le_or_lt 0 t with hts | hts
      · have h4 : |t| ≤ |u| := by
          rw [abs_of_nonneg hts]
          exact le_trans ht (le_abs_self u)
        have h5 : u - t ≤ FLT_MAX_REL_ERROR * |u| :=
          le_trans h (mul_le_mul_of_nonneg_left h4 hR)
        calc u - t2 ≤ u - t := by linarith
          _ ≤ FLT_MAX_REL_ERROR * |u| := h5
          _ ≤ FLT_MAX_REL_ERROR * max |u| |t2| :=
            mul_le_mul_of_nonneg_left (le_max_left _ _) hR
      · rw [abs_of_neg hts] at h
        have hu_neg : u < 0 := by
          nlinarith [mul_pos (by linarith : (0 : ℚ) < -t)
            (by linarith : (0 : ℚ) < 1 - FLT_MAX_REL_ERROR)]
        have ht2_neg : t2 < 0 := lt_of_le_of_lt h2 hu_neg
        have h7 : |u| ≤ |t2| := by
          rw [abs_of_neg ht2_neg, abs_of_neg hu_neg]
          linarith
        rw [max_eq_right h7, abs_of_neg ht2_neg]
        nlinarith [mul_le_mul_of_nonneg_right h1
          (by linarith : (0 : ℚ) ≤ 1 - FLT_MAX_REL_ERROR)]

theorem ts_fequals_mono_right {u t t2 : ℚ} (h : ts_fequals u t2 = true)
    (h1 : u < t) (h2 : t ≤ t2) : ts_fequals u t = true := by
  rw [ts_fequals_iff] at h ⊢
  have ht2 : u ≤ t2 := le_trans h1.le h2
  rw [abs_sub_comm, abs_of_nonneg (sub_nonneg.mpr ht2)] at h
  rw [abs_sub_comm, abs_of_nonneg (sub_nonneg.mpr h1.le)]
  have hR : (0 : ℚ) ≤ FLT_MAX_REL_ERROR := by norm_num [FLT_MAX_REL_ERROR]
  have hR1 : FLT_MAX_REL_ERROR < 1 := by norm_num [FLT_MAX_REL_ERROR]
  rcases h with h | h
  · exact Or.inl (by linarith)
  · right
    rcases le_total |t2| |u| with hc | hc
    · rw [max_eq_left hc] at h
      have h4 : |t| ≤ |u| := by
        rcases le_or_lt 0 t with hts | hts
        · rw [abs_of_nonneg hts]
          exact le_trans (le_trans h2 (le_abs_self t2)) hc
        · rw [abs_of_neg hts]
          have : -t < -u := by linarith
          exact le_trans this.le (neg_le_abs u)
      calc t - u ≤ t2 - u := by linarith
        _ ≤ FLT_MAX_REL_ERROR * |u| := h
        _ ≤ FLT_MAX_REL_ERROR * max |u| |t| :=
          mul_le_mul_of_nonneg_left (le_max_left _ _) hR
    · rw [max_eq_right hc] at h
      rcases le_or_lt t2 0 with ht2s | ht2s
      · have : |t2| ≤ |u| := by
          rw [abs_of_nonpos ht2s]
          have : -t2 ≤ -u := by linarith
          exact le_trans this (neg_le_abs u)
        calc t - u ≤ t2 - u := by linarith
          _ ≤ FLT_MAX_REL_ERROR * |u| :=
            le_trans h (mul_le_mul_of_nonneg_left this hR)
          _ ≤ FLT_MAX_REL_ERROR * max |u| |t| :=
            mul_le_mul_of_nonneg_left (le_max_left _ _) hR
      · rw [abs_of_pos ht2s] at h
        have hu_pos : 0 < u := by
          nlinarith [mul_pos ht2s (by linarith : (0 : ℚ) < 1 - FLT_MAX_REL_ERROR)]
        have ht_pos : 0 < t := lt_trans hu_pos h1
        have h7 : |u| ≤ |t| := by
          rw [abs_of_pos ht_pos, abs_of_pos hu_pos]
          exact h1.le
        rw [max_eq_right h7, abs_of_pos ht_pos]
        nlinarith [mul_le_mul_of_nonneg_right h2
          (by linarith : (0 : ℚ) ≤ 1 - FLT_MAX_REL_ERROR)]

theorem ts_eval_scan_cons_feq (u t : ℚ) (ts : List ℚ)
    (h : ts_fequals u t = true) :
    ts_eval_scan u (t :: ts) =
      ((ts_eval_scan u ts).1 + 1, (ts_eval_scan u ts).2 + 1) := by
  simp only [ts_eval_scan]
  simp [h]

theorem ts_eval_scan_cons_break (u t : ℚ) (ts : List ℚ)
    (h1 : ts_fequals u t = false) (h2 : u < t) :
    ts_eval_scan u (t :: ts) = (0, 0) := by
  simp only [ts_eval_scan]
  simp [h1, h2]

theorem ts_eval_scan_cons_pass (u t : ℚ) (ts : List ℚ)
    (h1 : ts_fequals u t = false) (h2 : ¬ u < t) :
    ts_eval_scan u (t :: ts) =
      ((ts_eval_scan u ts).1 + 1, (ts_eval_scan u ts).2) := by
  simp only [ts_eval_scan]
  simp [h1, h2]

theorem ts_eval_scan_fst_le (u : ℚ) (l : List ℚ) :
    (ts_eval_scan u l).1 ≤ l.length := by
  induction l with
  | nil => simp [ts_eval_scan]
  | cons t ts ih =>
    by_cases h1 : ts_fequals u t
    · rw [ts_eval_scan_cons_feq u t ts h1]
      simp
      omega
    · by_cases h2 : u < t
      · rw [ts_eval_scan_cons_break u t ts (by simpa using h1) h2]
        simp
      · rw [ts_eval_scan_cons_pass u t ts (by simpa using h1) h2]
        simp
        omega

theorem ts_eval_scan_snd (u : ℚ) (l : List ℚ) :
    (ts_eval_scan u l).2 =
      (l.take (ts_eval_scan u l).1).countP (fun t => ts_fequals u t) := by
  induction l with
  | nil => simp [ts_eval_scan]
  | cons t ts ih =>
    by_cases h1 : ts_fequals u t
    · rw [ts_eval_scan_cons_feq u t ts h1]
      simp [List.countP_cons, h1, ih]
    · by_cases h2 : u < t
      · rw [ts_eval_scan_cons_break u t ts (by simpa using h1) h2]
        simp
      · rw [ts_eval_scan_cons_pass u t ts (by simpa using h1) h2]
        simp [List.countP_cons, h1, ih]

theorem ts_eval_scan_passed (u : ℚ) (l : List ℚ) :
    ∀ j, j < (ts_eval_scan u l).1 →
      ts_fequals u (l.getD j 0) = true ∨ l.getD j 0 ≤ u := by
  induction l with
  | nil => intro j hj; simp [ts_eval_scan] at hj
  | cons t ts ih =>
    intro j hj
    by_cases h1 : ts_fequals u t
    · rw [ts_eval_scan_cons_feq u t ts h1] at hj
      cases j with
      | zero => exact Or.inl (by simpa using h1)
      | succ m =>
        have := ih m (by simpa using hj)
        simpa using this
    · by_cases h2 : u < t
      · rw [ts_eval_scan_cons_break u t ts (by simpa using h1) h2] at hj
        simp at hj
      · rw [ts_eval_scan_cons_pass u t ts (by simpa using h1) h2] at hj
        cases j with
        | zero => exact Or.inr (by simpa using not_lt.mp h2)
        | succ m =>
          have := ih m (by simpa using hj)
          simpa using this

theorem ts_eval_scan_break (u : ℚ) (l : List ℚ)
    (h : (ts_eval_scan u l).1 < l.length) :
    ts_fequals u (l.getD (ts_eval_scan u l).1 0) = false ∧
      u < l.getD (ts_eval_scan u l).1 0 := by
  induction l with
  | nil => simp [ts_eval_scan] at h
  | cons t ts ih =>
    by_cases h1 : ts_fequals u t
    · rw [ts_eval_scan_cons_feq u t ts h1] at h ⊢
      have := ih (by simpa using h)
      simpa using this
    · by_cases h2 : u < t
      · rw [ts_eval_scan_cons_break u t ts (by simpa using h1) h2]
        simpa using ⟨by simpa using h1, h2⟩
      · rw [ts_eval_scan_cons_pass u t ts (by simpa using h1) h2] at h ⊢
        have := ih (by simpa using h)
        simpa using this

theorem ts_eval_scan_append_pass (u : ℚ) (l1 l2 : List ℚ)
    (h : ∀ t ∈ l1, ts_fequals u t = true ∨ ¬ u < t) :
    ts_eval_scan u (l1 ++ l2) =
      ((ts_eval_scan u l2).1 + l1.length,
        (ts_eval_scan u l2).2 + l1.countP (fun t => ts_fequals u t)) := by
  induction l1 with
  | nil => simp
  | cons t ts ih =>
    have hts : ∀ x ∈ ts, ts_fequals u x = true ∨ ¬ u < x :=
      fun x hx => h x (by simp [hx])
    by_cases h1 : ts_fequals u t
    · rw [List.cons_append, ts_eval_scan_cons_feq u t _ h1, ih hts]
      simp [List.countP_cons, h1]
      omega
    · have h2 : ¬ u < t := by
        rcases h t (by simp) with hm | hm
        · exact absurd hm (by simpa using h1)
        · exact hm
      rw [List.cons_append, ts_eval_scan_cons_pass u t _ (by simpa using h1) h2, ih hts]
      simp [List.countP_cons, h1]
      omega

theorem ts_eval_scan_all_pass (u : ℚ) (l : List ℚ)
    (h : ∀ t ∈ l, ts_fequals u t = true ∨ ¬ u < t) :
    ts_eval_scan u l = (l.length, l.countP (fun t => ts_fequals u t)) := by
  have h2 := ts_eval_scan_append_pass u l [] h
  simpa [ts_eval_scan] using h2

theorem two_pow_64_eq : (2 : Nat) ^ 64 = 18446744073709551616 := by norm_num

theorem sadd_nat (a m : Nat) : sadd a (m : Int) = (a + m) % 2 ^ 64 := by
  unfold sadd
  have h1 : ((a : Int) + (m : Int)) = ((a + m : Nat) : Int) := by push_cast; ring
  rw [h1]
  have h2 : ((a + m : Nat) : Int) % ((2 : Int) ^ 64) = (((a + m) % 2 ^ 64 : Nat) : Int) := by
    push_cast
    rfl
  rw [h2, Int.toNat_natCast]

theorem w64_eq_of_lt {a : Nat} (h : a < 2 ^ 64) : w64 a = a := Nat.mod_eq_of_lt h

theorem ts_bspline_new_success (deg dim n_ctrlp : Nat) (type : tsBSplineType)
    (h : 0 ≤ (ts_bspline_new deg dim n_ctrlp type).1) :
    1 ≤ dim ∧ deg < n_ctrlp ∧ n_ctrlp + deg + 1 < 2 ^ 64 ∧
      (ts_bspline_new deg dim n_ctrlp type).2 =
        ts_bspline_setup_knots
          { deg := deg, order := deg + 1, dim := dim, n_ctrlp := n_ctrlp,
            n_knots := n_ctrlp + deg + 1,
            ctrlp := List.replicate (w64 (n_ctrlp * dim)) 0,
            knots := List.replicate (n_ctrlp + deg + 1) 0 } type := by
  unfold ts_bspline_new at h ⊢
  by_cases h1 : dim < 1
  · rw [if_pos h1] at h
    norm_num [TS_DIM_ZERO] at h
  · rw [if_neg h1] at h ⊢
    by_cases h2 : n_ctrlp ≤ deg
    · rw [if_pos h2] at h
      norm_num [TS_DEG_GE_NCTRLP] at h
    · rw [if_neg h2] at h ⊢
      by_cases h3 : w64 (deg + 1) < deg
      · rw [if_pos h3] at h
        norm_num [TS_OVER_UNDERFLOW] at h
      · rw [if_neg h3] at h ⊢
        by_cases h4 : w64 (n_ctrlp + w64 (deg + 1)) < n_ctrlp
        · rw [if_pos h4] at h
          norm_num [TS_OVER_UNDERFLOW] at h
        · rw [if_neg h4] at h ⊢
          have hdeg : deg + 1 < 2 ^ 64 := by
            by_contra hc
            push_neg at hc
            apply h3
            unfold w64
            rw [two_pow_64_eq] at hc ⊢
            omega
          have horder : w64 (deg + 1) = deg + 1 := w64_eq_of_lt hdeg
          rw [horder] at h4 ⊢
          have hknots : n_ctrlp + (deg + 1) < 2 ^ 64 := by
            by_contra hc
            push_neg at hc
            apply h4
            unfold w64
            rw [two_pow_64_eq] at hc ⊢
            omega
          have hk : w64 (n_ctrlp + (deg + 1)) = n_ctrlp + deg + 1 := by
            rw [w64_eq_of_lt hknots]
            omega
          rw [hk]
          refine ⟨by omega, by omega, by omega, rfl⟩

theorem ts_bspline_resize_back_spec (b : tsBSpline) (n : Nat)
    (hinv : ts_bspline_inv b) (hlen : b.knots.length = b.n_knots)
    (hk64 : b.n_knots < 2 ^ 64) (hn64 : n < 2 ^ 64)
    (h : 0 ≤ (ts_bspline_resize b (n : Int) 1).1) :
    (ts_bspline_resize b (n : Int) 1).2.deg = b.deg ∧
      (ts_bspline_resize b (n : Int) 1).2.order = b.deg + 1 ∧
      (ts_bspline_resize b (n : Int) 1).2.dim = b.dim ∧
      (ts_bspline_resize b (n : Int) 1).2.n_ctrlp = b.n_ctrlp + n ∧
      (ts_bspline_resize b (n : Int) 1).2.n_knots = b.n_knots + n ∧
      (ts_bspline_resize b (n : Int) 1).2.knots = b.knots ++ List.replicate n (0 : ℚ) := by
  obtain ⟨ho, hnk, hdn, hdim⟩ := hinv
  rcases Nat.eq_zero_or_pos n with hn0 | hnpos
  · subst hn0
    unfold ts_bspline_resize
    rw [if_pos (by norm_num)]
    simp [ho]
  · have hne : ¬((n : Int) = 0) := by
      simp
      omega
    unfold ts_bspline_resize at h ⊢
    rw [if_neg hne] at h ⊢
    simp only [sadd_nat] at h ⊢
    by_cases hc1 : (b.n_ctrlp + n) % 2 ^ 64 ≤ b.deg
    · rw [if_pos hc1] at h
      norm_num [TS_DEG_GE_NCTRLP] at h
    · rw [if_neg hc1] at h ⊢
      have hc2 : ¬((n : Int) < 0 ∧ b.n_ctrlp < (b.n_ctrlp + n) % 2 ^ 64) := by
        rintro ⟨hneg, -⟩
        omega
      rw [if_neg hc2] at h ⊢
      by_cases hc3 : (0 : Int) < (n : Int) ∧ (b.n_ctrlp + n) % 2 ^ 64 < b.n_ctrlp
      · rw [if_pos hc3] at h
        norm_num [TS_OVER_UNDERFLOW] at h
      · rw [if_neg hc3] at h ⊢
        have hnc64 : b.n_ctrlp < 2 ^ 64 := by omega
        have hsum : (b.n_ctrlp + n) % 2 ^ 64 = b.n_ctrlp + n := by
          rcases Nat.lt_or_ge (b.n_ctrlp + n) (2 ^ 64) with hlt | hge
          · exact Nat.mod_eq_of_lt hlt
          · exfalso
            apply hc3
            constructor
            · exact_mod_cast hnpos
            · rw [two_pow_64_eq] at hnc64 hn64 hge ⊢
              omega
        rw [hsum] at h ⊢
        by_cases hnew : 0 ≤ (ts_bspline_new b.deg b.dim (b.n_ctrlp + n) tsBSplineType.TS_NONE).1
        · obtain ⟨hdim1, hdlt, hfit, heq⟩ :=
            ts_bspline_new_success b.deg b.dim (b.n_ctrlp + n) tsBSplineType.TS_NONE hnew
          rw [if_neg (by omega)]
          have hmin : ¬((n : Int) < 0) := by omega
          have hback : ¬((1 : Nat) = 0 ∧ (n : Int) < 0) := by
            rintro ⟨hb1, -⟩
            norm_num at hb1
          have hback2 : ¬((1 : Nat) = 0 ∧ (0 : Int) < (n : Int)) := by
            rintro ⟨hb1, -⟩
            norm_num at hb1
          simp only [if_neg hmin, if_neg hback, if_neg hback2, heq]
          unfold ts_bspline_setup_knots ts_knots_setup
          refine ⟨rfl, rfl, rfl, rfl, ?_, ?_⟩
          · show b.n_ctrlp + n + b.deg + 1 = b.n_knots + n
            omega
          · unfold listWrite
            have htake : b.knots.take b.n_knots = b.knots := by
              rw [← hlen]
              exact List.take_length b.knots
            simp only [List.drop_zero, List.take_zero, List.nil_append, Nat.zero_add, htake, hlen]
            have hxn : b.n_ctrlp + n + b.deg + 1 - b.n_knots = n := by omega
            rw [List.drop_replicate, hxn]
        · exfalso
          push_neg at hnew
          rw [if_pos hnew] at h
          omega

theorem ts_bspline_evaluate_err (b : tsBSpline) (u : ℚ) (K s : Nat)
    (hK : (ts_eval_scan u (b.knots.take b.n_knots)).1 = K)
    (hs : (ts_eval_scan u (b.knots.take b.n_knots)).2 = s)
    (hcond : K = 0 ∨ (K = b.n_knots ∧ s = 0) ∨
      (s ≤ b.deg ∧ (K ≤ b.deg ∨ K > b.n_knots - b.deg + s - 1))) :
    ts_bspline_evaluate b u = (TS_U_UNDEFINED, ts_deboornet_default) := by
  unfold ts_bspline_evaluate
  simp only []
  rw [hK, hs]
  rcases hcond with h | h | h
  · rw [if_pos h]
  · by_cases h0 : K = 0
    · rw [if_pos h0]
    · rw [if_neg h0, if_pos h]
  · by_cases h0 : K = 0
    · rw [if_pos h0]
    · rw [if_neg h0]
      by_cases hb : K = b.n_knots ∧ s = 0
      · rw [if_pos hb]
      · rw [if_neg hb, if_pos h]

theorem ts_bspline_evaluate_not_err (b : tsBSpline) (u : ℚ) (K s : Nat)
    (hK : (ts_eval_scan u (b.knots.take b.n_knots)).1 = K)
    (hs : (ts_eval_scan u (b.knots.take b.n_knots)).2 = s)
    (hncond : ¬(K = 0 ∨ (K = b.n_knots ∧ s = 0) ∨
      (s ≤ b.deg ∧ (K ≤ b.deg ∨ K > b.n_knots - b.deg + s - 1)))) :
    (ts_bspline_evaluate b u).1 = TS_MULTIPLICITY ∨
      (ts_bspline_evaluate b u).1 = 0 ∨ (ts_bspline_evaluate b u).1 = 1 ∨
      (ts_bspline_evaluate b u).1 = 2 := by
  push_neg at hncond
  obtain ⟨n1, n2, n3⟩ := hncond
  unfold ts_bspline_evaluate
  simp only []
  rw [hK, hs]
  rw [if_neg n1, if_neg (by omega : ¬(K = b.n_knots ∧ s = 0)),
    if_neg (by omega : ¬(s ≤ b.deg ∧ (K ≤ b.deg ∨ K > b.n_knots - b.deg + s - 1)))]
  by_cases h4 : b.order < s
  · rw [if_pos h4]
    simp
  · rw [if_neg h4]
    by_cases h5 : s = b.order
    · rw [if_pos h5]
      by_cases h6 : K - 1 = b.deg ∨ K - 1 = b.n_knots - 1
      · rw [if_pos h6]
        simp
      · rw [if_neg h6]
        simp
    · rw [if_neg h5]
      simp

theorem ts_bspline_evaluate_code0 (b : tsBSpline) (u : ℚ) (K s : Nat)
    (hK : (ts_eval_scan u (b.knots.take b.n_knots)).1 = K)
    (hs : (ts_eval_scan u (b.knots.take b.n_knots)).2 = s)
    (h1 : ¬K = 0) (h2 : ¬(K = b.n_knots ∧ s = 0))
    (h3 : ¬(s ≤ b.deg ∧ (K ≤ b.deg ∨ K > b.n_knots - b.deg + s - 1)))
    (h4 : ¬b.order < s) (h5 : ¬s = b.order) :
    ts_bspline_evaluate b u =
      (0, { u := if ts_fequals u (b.knots.getD (K - 1) 0) then b.knots.getD (K - 1) 0 else u,
            k := K - 1, s := s,
            h := if b.deg < s then 0 else b.deg - s,
            dim := b.dim,
            n_points := (K - 1 - s - (K - 1 - b.deg) + 1) *
              ((K - 1 - s - (K - 1 - b.deg) + 1) + 1) / 2,
            points := (ts_deboor_rows b.knots
                (if ts_fequals u (b.knots.getD (K - 1) 0) then b.knots.getD (K - 1) 0 else u)
                b.dim b.deg (K - 1 - b.deg) (K - 1 - s)
                ((b.ctrlp.drop ((K - 1 - b.deg) * b.dim)).take
                  ((K - 1 - s - (K - 1 - b.deg) + 1) * b.dim))
                (if b.deg < s then 0 else b.deg - s)).flatten,
            result := ((K - 1 - s - (K - 1 - b.deg) + 1) *
              ((K - 1 - s - (K - 1 - b.deg) + 1) + 1) / 2 - 1) * b.dim }) := by
  unfold ts_bspline_evaluate
  simp only []
  rw [hK, hs]
  simp only [if_neg h1, if_neg h2, if_neg h3, if_neg h4, if_neg h5]

theorem ts_bspline_evaluate_code1 (b : tsBSpline) (u : ℚ) (K s : Nat)
    (hK : (ts_eval_scan u (b.knots.take b.n_knots)).1 = K)
    (hs : (ts_eval_scan u (b.knots.take b.n_knots)).2 = s)
    (h1 : ¬K = 0) (h2 : ¬(K = b.n_knots ∧ s = 0))
    (h3 : ¬(s ≤ b.deg ∧ (K ≤ b.deg ∨ K > b.n_knots - b.deg + s - 1)))
    (h4 : ¬b.order < s) (h5 : s = b.order)
    (h6 : K - 1 = b.deg ∨ K - 1 = b.n_knots - 1) :
    ts_bspline_evaluate b u =
      (1, { u := if ts_fequals u (b.knots.getD (K - 1) 0) then b.knots.getD (K - 1) 0 else u,
            k := K - 1, s := s,
            h := if b.deg < s then 0 else b.deg - s,
            dim := b.dim, n_points := 1,
            points := (b.ctrlp.drop
              (if K - 1 = b.deg then 0 else (K - 1 - s) * b.dim)).take b.dim,
            result := 0 }) := by
  unfold ts_bspline_evaluate
  simp only []
  rw [hK, hs]
  simp only [if_neg h1, if_neg h2, if_neg h3, if_neg h4, if_pos h5, if_pos h6]

theorem ts_bspline_evaluate_mult (b : tsBSpline) (u : ℚ) (K s : Nat)
    (hK : (ts_eval_scan u (b.knots.take b.n_knots)).1 = K)
    (hs : (ts_eval_scan u (b.knots.take b.n_knots)).2 = s)
    (h1 : ¬K = 0) (h2 : ¬(K = b.n_knots ∧ s = 0))
    (h3 : ¬(s ≤ b.deg ∧ (K ≤ b.deg ∨ K > b.n_knots - b.deg + s - 1)))
    (h4 : b.order < s) :
    ts_bspline_evaluate b u = (TS_MULTIPLICITY, ts_deboornet_default) := by
  unfold ts_bspline_evaluate
  simp only []
  rw [hK, hs]
  simp only [if_neg h1, if_neg h2, if_neg h3, if_pos h4]

theorem ts_bspline_evaluate_code0_inv (b : tsBSpline) (u : ℚ) (K s : Nat)
    (hK : (ts_eval_scan u (b.knots.take b.n_knots)).1 = K)
    (hs : (ts_eval_scan u (b.knots.take b.n_knots)).2 = s)
    (hret : (ts_bspline_evaluate b u).1 = 0) :
    ¬K = 0 ∧ ¬(K = b.n_knots ∧ s = 0) ∧
      ¬(s ≤ b.deg ∧ (K ≤ b.deg ∨ K > b.n_knots - b.deg + s - 1)) ∧
      ¬b.order < s ∧ ¬s = b.order := by
  unfold ts_bspline_evaluate at hret
  simp only [] at hret
  rw [hK, hs] at hret
  split_ifs at hret with h1 h2 h3 h4 h5 h6 <;>
    first
      | (exact ⟨h1, h2, h3, h4, h5⟩)
      | (norm_num [TS_U_UNDEFINED, TS_MULTIPLICITY] at hret)

theorem insert_knots_write (knots : List ℚ) (m k n : Nat) (u : ℚ)
    (hlen : knots.length = m) (hk : k + 1 ≤ m) :
    listWrite (listWrite (listWrite (knots ++ List.replicate n 0) 0 (knots.take (k + 1)))
        (k + 1 + n) ((knots.drop (k + 1)).take (m + n - n - (k + 1))))
      (k + 1) (List.replicate n u) =
    knots.take (k + 1) ++ List.replicate n u ++ knots.drop (k + 1) := by
  have hlt : (knots.take (k + 1)).length = k + 1 := by
    rw [List.length_take]
    omega
  have hld : (knots.drop (k + 1)).length = m - (k + 1) := by
    rw [List.length_drop]
    omega
  have hmn : m + n - n - (k + 1) = m - (k + 1) := by omega
  have hw1 : listWrite (knots ++ List.replicate n 0) 0 (knots.take (k + 1)) =
      knots ++ List.replicate n (0 : ℚ) := by
    unfold listWrite
    rw [List.take_zero, List.nil_append, Nat.zero_add, hlt]
    rw [List.drop_append_of_le_length (by omega)]
    rw [← List.append_assoc, List.take_append_drop]
  rw [hw1, hmn]
  have htfull : (knots.drop (k + 1)).take (m - (k + 1)) = knots.drop (k + 1) := by
    rw [← hld]
    exact List.take_length _
  rw [htfull]
  have hw2 : listWrite (knots ++ List.replicate n 0) (k + 1 + n) (knots.drop (k + 1)) =
      (knots ++ List.replicate n (0 : ℚ)).take (k + 1 + n) ++ knots.drop (k + 1) := by
    unfold listWrite
    rw [hld]
    have hend : (knots ++ List.replicate n (0 : ℚ)).drop (k + 1 + n + (m - (k + 1))) = [] := by
      apply List.drop_eq_nil_of_le
      rw [List.length_append, List.length_replicate]
      omega
    rw [hend, List.append_nil]
  rw [hw2]
  unfold listWrite
  have hx : ((knots ++ List.replicate n (0 : ℚ)).take (k + 1 + n)).length = k + 1 + n := by
    rw [List.length_take, List.length_append, List.length_replicate]
    omega
  have ht1 : (((knots ++ List.replicate n (0 : ℚ)).take (k + 1 + n) ++
      knots.drop (k + 1)).take (k + 1)) = knots.take (k + 1) := by
    rw [List.take_append_of_le_length (by omega)]
    rw [List.take_take, min_eq_left (by omega)]
    rw [List.take_append_of_le_length (by omega)]
  have ht2 : (((knots ++ List.replicate n (0 : ℚ)).take (k + 1 + n) ++
      knots.drop (k + 1)).drop (k + 1 + (List.replicate n u).length)) = knots.drop (k + 1) := by
    rw [List.length_replicate]
    rw [List.drop_append_of_le_length (by omega)]
    have : ((knots ++ List.replicate n (0 : ℚ)).take (k + 1 + n)).drop (k + 1 + n) = [] := by
      apply List.drop_eq_nil_of_le
      omega
    rw [this, List.nil_append]
  rw [ht1, ht2]

theorem ts_internal_insert_spec (b : tsBSpline) (net : tsDeBoorNet) (n : Nat)
    (hinv : ts_bspline_inv b) (hlen : b.knots.length = b.n_knots)
    (hk64 : b.n_knots < 2 ^ 64) (hkK : net.k + 1 ≤ b.n_knots)
    (hret : 0 ≤ (ts_internal_bspline_insert_knot b net n).1) :
    (ts_internal_bspline_insert_knot b net n).2.deg = b.deg ∧
      (ts_internal_bspline_insert_knot b net n).2.order = b.order ∧
      (ts_internal_bspline_insert_knot b net n).2.dim = b.dim ∧
      (ts_internal_bspline_insert_knot b net n).2.n_ctrlp = b.n_ctrlp + n ∧
      (ts_internal_bspline_insert_knot b net n).2.n_knots = b.n_knots + n ∧
      (ts_internal_bspline_insert_knot b net n).2.knots =
        b.knots.take (net.k + 1) ++ List.replicate n net.u ++ b.knots.drop (net.k + 1) := by
  obtain ⟨ho, hnk, hdn, hdim⟩ := hinv
  unfold ts_internal_bspline_insert_knot at hret ⊢
  simp only [] at hret ⊢
  by_cases hm : b.order < net.s + n
  · rw [if_pos hm] at hret
    norm_num [TS_MULTIPLICITY] at hret
  · rw [if_neg hm] at hret ⊢
    by_cases hint : 2 ^ 31 ≤ n % 2 ^ 32
    · rw [if_pos hint] at hret
      norm_num [TS_OVER_UNDERFLOW] at hret
    · rw [if_neg hint] at hret ⊢
      by_cases hrz : (ts_bspline_resize b (n : Int) 1).1 < 0
      · rw [if_pos hrz] at hret
        omega
      · rw [if_neg hrz] at hret ⊢
        have hn64 : n < 2 ^ 64 := by
          have : n ≤ b.order := by omega
          omega
        obtain ⟨rd, ro, rdim, rc, rk, rknots⟩ :=
          ts_bspline_resize_back_spec b n ⟨ho, hnk, hdn, hdim⟩ hlen hk64 hn64 (by omega)
        by_cases hn0 : n = 0
        · rw [if_pos hn0]
          subst hn0
          refine ⟨rd, by rw [ro, ho], rdim, rc, rk, ?_⟩
          rw [rknots]
          simp only [List.replicate_zero, List.append_nil, List.nil_append]
          rw [List.take_append_drop]
        · rw [if_neg hn0] at hret ⊢
          by_cases hs1 : 2 ^ 31 ≤ (net.h + 1) * b.dim % 2 ^ 32
          · rw [if_pos hs1] at hret
            norm_num [TS_OVER_UNDERFLOW] at hret
          · rw [if_neg hs1] at hret ⊢
            by_cases hs2 : (net.h + 1 - n + 1) * b.dim % 2 ^ 32 = 0 ∨
                2 ^ 31 < (net.h + 1 - n + 1) * b.dim % 2 ^ 32
            · rw [if_pos hs2] at hret
              norm_num [TS_OVER_UNDERFLOW] at hret
            · rw [if_neg hs2]
              refine ⟨rd, ro.trans ho.symm, rdim, rc, rk, ?_⟩
              rw [rknots, rk]
              exact insert_knots_write b.knots b.n_knots net.k n net.u hlen hkK

theorem ts_fequals_eval (x y : ℚ) :
    ts_fequals x y = decide ((x - y) ^ 2 ≤ FLT_MAX_ABS_ERROR ^ 2 ∨
      (x - y) ^ 2 ≤ (FLT_MAX_REL_ERROR * x) ^ 2 ∨
      (x - y) ^ 2 ≤ (FLT_MAX_REL_ERROR * y) ^ 2) := by
  have hA : (0 : ℚ) ≤ FLT_MAX_ABS_ERROR := by norm_num [FLT_MAX_ABS_ERROR]
  have hR : (0 : ℚ) ≤ FLT_MAX_REL_ERROR := by norm_num [FLT_MAX_REL_ERROR]
  have hiff : (ts_fequals x y = true) ↔
      ((x - y) ^ 2 ≤ FLT_MAX_ABS_ERROR ^ 2 ∨
        (x - y) ^ 2 ≤ (FLT_MAX_REL_ERROR * x) ^ 2 ∨
        (x - y) ^ 2 ≤ (FLT_MAX_REL_ERROR * y) ^ 2) := by
    rw [ts_fequals_iff]
    have h1 : (|x - y| ≤ FLT_MAX_ABS_ERROR) ↔
        (x - y) ^ 2 ≤ FLT_MAX_ABS_ERROR ^ 2 := by
      rw [sq_le_sq, abs_of_nonneg hA]
    have h2 : (|x - y| ≤ FLT_MAX_REL_ERROR * max |x| |y|) ↔
        ((x - y) ^ 2 ≤ (FLT_MAX_REL_ERROR * x) ^ 2 ∨
          (x - y) ^ 2 ≤ (FLT_MAX_REL_ERROR * y) ^ 2) := by
      rw [mul_max_of_nonneg _ _ hR, le_max_iff, sq_le_sq, sq_le_sq, abs_mul, abs_mul,
        abs_of_nonneg hR]
    rw [h1, h2]
  by_cases h : ts_fequals x y = true
  · rw [h]
    exact (decide_eq_true (hiff.mp h)).symm
  · rw [Bool.not_eq_true] at h
    rw [h]
    have hnp : ¬((x - y) ^ 2 ≤ FLT_MAX_ABS_ERROR ^ 2 ∨
        (x - y) ^ 2 ≤ (FLT_MAX_REL_ERROR * x) ^ 2 ∨
        (x - y) ^ 2 ≤ (FLT_MAX_REL_ERROR * y) ^ 2) := by
      intro hp
      have := hiff.mpr hp
      rw [h] at this
      exact Bool.false_ne_true this
    exact (decide_eq_false hnp).symm

theorem ts_bspline_new_ok (deg dim n_ctrlp : Nat) (type : tsBSplineType)
    (hdim : 1 ≤ dim) (hdeg : deg < n_ctrlp) (hfit : n_ctrlp + deg + 1 < 2 ^ 64) :
    (ts_bspline_new deg dim n_ctrlp type).1 = TS_SUCCESS ∧
      (ts_bspline_new deg dim n_ctrlp type).2 =
        ts_bspline_setup_knots
          { deg := deg, order := deg + 1, dim := dim, n_ctrlp := n_ctrlp,
            n_knots := n_ctrlp + deg + 1,
            ctrlp := List.replicate (w64 (n_ctrlp * dim)) 0,
            knots := List.replicate (n_ctrlp + deg + 1) 0 } type := by
  unfold ts_bspline_new
  simp only []
  rw [if_neg (by omega), if_neg (by omega)]
  have ho : w64 (deg + 1) = deg + 1 := w64_eq_of_lt (by omega)
  rw [ho, if_neg (by omega)]
  have hk : w64 (n_ctrlp + (deg + 1)) = n_ctrlp + (deg + 1) := w64_eq_of_lt (by omega)
  rw [hk, if_neg (by omega)]
  exact ⟨rfl, rfl⟩

theorem ts_knots_setup_clamped_getD (deg order n_knots : Nat) (old : List ℚ)
    (i : Nat) (h : i < n_knots) :
    (ts_knots_setup tsBSplineType.TS_CLAMPED deg order n_knots old).getD i 0 =
      if i < order then 0
      else if i < n_knots - order then
        ((i - order + 1 : Nat) : ℚ) / ((n_knots - 2 * deg - 1 : Nat) : ℚ)
      else 1 := by
  unfold ts_knots_setup
  rw [List.getD_eq_getElem _ _ (by rw [List.length_ofFn]; exact h)]
  rw [List.getElem_ofFn]

theorem ts_knots_setup_clamped_length (deg order n_knots : Nat) (old : List ℚ) :
    (ts_knots_setup tsBSplineType.TS_CLAMPED deg order n_knots old).length = n_knots := by
  unfold ts_knots_setup
  exact List.length_ofFn _

/-- Claim C7: clamped knot setup.  For every `deg`, `dim ≥ 1`, `n_ctrlp > deg`
(with the sizes representable in `size_t`), `ts_bspline_new deg dim n_ctrlp
TS_CLAMPED` produces a knot vector whose first `order` entries are `0`, whose
last `order` entries are `1`, and whose interior entries at index `i` are
`(i - order + 1) / (n_knots - 2*deg - 1)`, i.e. `j / (n_knots - 2*deg - 1)`
for `j = 1, 2, …`; in particular `new(3, 1, 7, CLAMPED)` produces the knots
`(0, 0, 0, 0, 1/4, 2/4, 3/4, 1, 1, 1, 1)`. -/
theorem C7_clamped_knot_setup :
    (∀ deg dim n_ctrlp : Nat, 1 ≤ dim → deg < n_ctrlp → n_ctrlp + deg + 1 < 2 ^ 64 →
      ((ts_bspline_new deg dim n_ctrlp tsBSplineType.TS_CLAMPED).2.order = deg + 1 ∧
        (ts_bspline_new deg dim n_ctrlp tsBSplineType.TS_CLAMPED).2.n_knots =
          n_ctrlp + deg + 1) ∧
      (∀ i, i < deg + 1 →
        (ts_bspline_new deg dim n_ctrlp tsBSplineType.TS_CLAMPED).2.knots.getD i 0 = 0) ∧
      (∀ i, n_ctrlp ≤ i → i < n_ctrlp + deg + 1 →
        (ts_bspline_new deg dim n_ctrlp tsBSplineType.TS_CLAMPED).2.knots.getD i 0 = 1) ∧
      (∀ i, deg + 1 ≤ i → i < n_ctrlp →
        (ts_bspline_new deg dim n_ctrlp tsBSplineType.TS_CLAMPED).2.knots.getD i 0 =
          ((i - (deg + 1) + 1 : Nat) : ℚ) / ((n_ctrlp + deg + 1 - 2 * deg - 1 : Nat) : ℚ))) ∧
    (ts_bspline_new 3 1 7 tsBSplineType.TS_CLAMPED).2.knots =
      [0, 0, 0, 0, 1/4, 2/4, 3/4, 1, 1, 1, 1] := by
  constructor
  · intro deg dim n_ctrlp hdim hdeg hfit
    obtain ⟨-, heq⟩ := ts_bspline_new_ok deg dim n_ctrlp tsBSplineType.TS_CLAMPED hdim hdeg hfit
    rw [heq]
    unfold ts_bspline_setup_knots
    refine ⟨⟨rfl, rfl⟩, ?_, ?_, ?_⟩
    · intro i hi
      rw [ts_knots_setup_clamped_getD _ _ _ _ i (show i < n_ctrlp + deg + 1 by omega)]
      rw [if_pos hi]
    · intro i hi1 hi2
      rw [ts_knots_setup_clamped_getD _ _ _ _ i (show i < n_ctrlp + deg + 1 by omega)]
      rw [if_neg (show ¬i < deg + 1 by omega),
        if_neg (show ¬i < n_ctrlp + deg + 1 - (deg + 1) by omega)]
    · intro i hi1 hi2
      rw [ts_knots_setup_clamped_getD _ _ _ _ i (show i < n_ctrlp + deg + 1 by omega)]
      rw [if_neg (show ¬i < deg + 1 by omega),
        if_pos (show i < n_ctrlp + deg + 1 - (deg + 1) by omega)]
  · obtain ⟨-, heq⟩ := ts_bspline_new_ok 3 1 7 tsBSplineType.TS_CLAMPED
      (by norm_num) (by norm_num) (by norm_num)
    rw [heq]
    unfold ts_bspline_setup_knots ts_knots_setup
    norm_num [List.ofFn_succ]

theorem C7_clamped_knot_setup_witness :
    (ts_bspline_new 3 1 7 tsBSplineType.TS_CLAMPED).2.knots.getD 4 0 =
      ((4 - (3 + 1) + 1 : Nat) : ℚ) / ((7 + 3 + 1 - 2 * 3 - 1 : Nat) : ℚ) :=
  (C7_clamped_knot_setup.1 3 1 7 (by norm_num) (by norm_num)
    (by norm_num)).2.2.2 4 (by norm_num) (by norm_num)

/-- Claim C10: for every input accepted by `ts_bspline_new` (`dim ≥ 1`,
`deg < n_ctrlp`, no size overflow), the clamped knot setup performs no
division by zero: the interior denominator `n_knots - 2*deg - 1` equals
`n_ctrlp - deg ≥ 1`, and when `n_ctrlp = order` there are no interior knot
indices at all (the interior loop runs zero iterations), settling the spec's
open question (a). -/
theorem C10_clamped_no_div_by_zero :
    ∀ deg dim n_ctrlp : Nat, 1 ≤ dim → deg < n_ctrlp → n_ctrlp + deg + 1 < 2 ^ 64 →
      (ts_bspline_new deg dim n_ctrlp tsBSplineType.TS_CLAMPED).1 = TS_SUCCESS ∧
      ((ts_bspline_new deg dim n_ctrlp tsBSplineType.TS_CLAMPED).2.n_knots -
          2 * (ts_bspline_new deg dim n_ctrlp tsBSplineType.TS_CLAMPED).2.deg - 1 =
        n_ctrlp - deg) ∧
      1 ≤ (ts_bspline_new deg dim n_ctrlp tsBSplineType.TS_CLAMPED).2.n_knots -
          2 * (ts_bspline_new deg dim n_ctrlp tsBSplineType.TS_CLAMPED).2.deg - 1 ∧
      (n_ctrlp = deg + 1 →
        ∀ i, ¬((ts_bspline_new deg dim n_ctrlp tsBSplineType.TS_CLAMPED).2.order ≤ i ∧
          i < (ts_bspline_new deg dim n_ctrlp tsBSplineType.TS_CLAMPED).2.n_knots -
            (ts_bspline_new deg dim n_ctrlp tsBSplineType.TS_CLAMPED).2.order)) := by
  intro deg dim n_ctrlp hdim hdeg hfit
  obtain ⟨hret, heq⟩ := ts_bspline_new_ok deg dim n_ctrlp tsBSplineType.TS_CLAMPED hdim hdeg hfit
  rw [hret, heq]
  unfold ts_bspline_setup_knots
  refine ⟨rfl, ?_, ?_, ?_⟩
  · show n_ctrlp + deg + 1 - 2 * deg - 1 = n_ctrlp - deg
    omega
  · show 1 ≤ n_ctrlp + deg + 1 - 2 * deg - 1
    omega
  · intro hco i
    show ¬(deg + 1 ≤ i ∧ i < n_ctrlp + deg + 1 - (deg + 1))
    omega

theorem C10_clamped_no_div_by_zero_witness :
    1 ≤ (ts_bspline_new 1 1 2 tsBSplineType.TS_CLAMPED).2.n_knots -
        2 * (ts_bspline_new 1 1 2 tsBSplineType.TS_CLAMPED).2.deg - 1 :=
  (C10_clamped_no_div_by_zero 1 1 2 (by norm_num) (by norm_num) (by norm_num)).2.2.1

theorem ts_bspline_equals_eq_one_iff (x y : tsBSpline) :
    ts_bspline_equals x y = 1 ↔
      x.deg = y.deg ∧ x.order = y.order ∧ x.dim = y.dim ∧ x.n_ctrlp = y.n_ctrlp ∧
        x.n_knots = y.n_knots ∧
        (∀ i < x.n_ctrlp, ts_fequals (x.ctrlp.getD i 0) (y.ctrlp.getD i 0) = true) ∧
        (∀ i < x.n_knots, ts_fequals (x.knots.getD i 0) (y.knots.getD i 0) = true) := by
  unfold ts_bspline_equals
  by_cases hmeta : x.deg ≠ y.deg ∨ x.order ≠ y.order ∨ x.dim ≠ y.dim ∨
      x.n_ctrlp ≠ y.n_ctrlp ∨ x.n_knots ≠ y.n_knots
  · rw [if_pos hmeta]
    refine iff_of_false (by norm_num) ?_
    rintro ⟨h1, h2, h3, h4, h5, -, -⟩
    exact absurd hmeta (by push_neg; exact ⟨h1, h2, h3, h4, h5⟩)
  · rw [if_neg hmeta]
    push_neg at hmeta
    obtain ⟨m1, m2, m3, m4, m5⟩ := hmeta
    by_cases hall : ((List.range x.n_ctrlp).all fun i =>
        ts_fequals (x.ctrlp.getD i 0) (y.ctrlp.getD i 0)) = true ∧
        ((List.range x.n_knots).all fun i =>
          ts_fequals (x.knots.getD i 0) (y.knots.getD i 0)) = true
    · rw [if_pos hall]
      rw [List.all_eq_true, List.all_eq_true] at hall
      refine iff_of_true rfl ⟨m1, m2, m3, m4, m5, ?_, ?_⟩
      · intro i hi
        exact hall.1 i (List.mem_range.mpr hi)
      · intro i hi
        exact hall.2 i (List.mem_range.mpr hi)
    · rw [if_neg hall]
      refine iff_of_false (by norm_num) ?_
      rintro ⟨-, -, -, -, -, hc, hk⟩
      apply hall
      constructor
      · rw [List.all_eq_true]
        intro i hi
        exact hc i (List.mem_range.mp hi)
      · rw [List.all_eq_true]
        intro i hi
        exact hk i (List.mem_range.mp hi)

/-- Claim C9 (implicit): `ts_bspline_equals x y` returns `1` iff the five
scalar fields agree, the first `n_ctrlp` scalars of the flat control-point
buffers (not all `n_ctrlp * dim` scalars) are pairwise `ts_fequals`-equal,
and all `n_knots` knots are pairwise `ts_fequals`-equal.  Consequently, for
`dim ≥ 2`, two splines whose control points differ only in scalars beyond the
first `n_ctrlp` buffer entries are reported equal. -/
theorem C9_equals_compares_first_nctrlp_scalars :
    (∀ x y : tsBSpline,
      (ts_bspline_equals x y = 1 ↔
        x.deg = y.deg ∧ x.order = y.order ∧ x.dim = y.dim ∧ x.n_ctrlp = y.n_ctrlp ∧
          x.n_knots = y.n_knots ∧
          (∀ i < x.n_ctrlp, ts_fequals (x.ctrlp.getD i 0) (y.ctrlp.getD i 0) = true) ∧
          (∀ i < x.n_knots, ts_fequals (x.knots.getD i 0) (y.knots.getD i 0) = true))) ∧
    (∀ x y : tsBSpline, 2 ≤ x.dim →
      x.deg = y.deg → x.order = y.order → x.dim = y.dim → x.n_ctrlp = y.n_ctrlp →
      x.n_knots = y.n_knots → x.knots = y.knots →
      (∀ i < x.n_ctrlp, x.ctrlp.getD i 0 = y.ctrlp.getD i 0) →
      ts_bspline_equals x y = 1) := by
  refine ⟨fun x y => ts_bspline_equals_eq_one_iff x y, ?_⟩
  intro x y hdim h1 h2 h3 h4 h5 hkn hcp
  rw [ts_bspline_equals_eq_one_iff]
  refine ⟨h1, h2, h3, h4, h5, ?_, ?_⟩
  · intro i hi
    rw [hcp i hi]
    exact ts_fequals_refl _
  · intro i hi
    rw [hkn]
    exact ts_fequals_refl _

def equalsWitnessX : tsBSpline :=
  { deg := 1, order := 2, dim := 2, n_ctrlp := 2, n_knots := 4,
    ctrlp := [1, 2, 3, 4], knots := [0, 0, 1, 1] }

def equalsWitnessY : tsBSpline :=
  { deg := 1, order := 2, dim := 2, n_ctrlp := 2, n_knots := 4,
    ctrlp := [1, 2, 99, 100], knots := [0, 0, 1, 1] }

theorem C9_equals_compares_first_nctrlp_scalars_witness :
    ts_bspline_equals equalsWitnessX equalsWitnessY = 1 :=
  C9_equals_compares_first_nctrlp_scalars.2 equalsWitnessX equalsWitnessY
    (by norm_num [equalsWitnessX]) rfl rfl rfl rfl rfl rfl
    (by
      intro i hi
      have hi2 : i < 2 := hi
      interval_cases i <;> rfl)

def bezierCubic : tsBSpline :=
  { deg := 3, order := 4, dim := 1, n_ctrlp := 4, n_knots := 8,
    ctrlp := [0, 1, 2, 3], knots := [0, 0, 0, 0, 1, 1, 1, 1] }

theorem bezierCubic_valid : ts_bspline_valid bezierCubic := by
  refine ⟨⟨⟨rfl, rfl, by norm_num [bezierCubic], by norm_num [bezierCubic]⟩, rfl, rfl,
    by norm_num [bezierCubic], by norm_num [bezierCubic]⟩, ?_⟩
  norm_num [bezierCubic, List.pairwise_cons]

/-- Claim C4: for every valid BSpline `b` and parameter `u`, evaluation fails
with `TS_U_UNDEFINED` exactly when, after the span search producing `k` and
`s`, either `k = 0`, or `k = n_knots` with `s = 0`, or `s ≤ deg` and
(`k ≤ deg` or `k > n_knots - deg + s - 1`); and on such failure the output
net is the empty zeroed state. -/
theorem C4_evaluate_domain_check (b : tsBSpline) (u : ℚ) (hb : ts_bspline_valid b) :
    ((ts_bspline_evaluate b u).1 = TS_U_UNDEFINED ↔
      ((ts_eval_scan u (b.knots.take b.n_knots)).1 = 0 ∨
        ((ts_eval_scan u (b.knots.take b.n_knots)).1 = b.n_knots ∧
          (ts_eval_scan u (b.knots.take b.n_knots)).2 = 0) ∨
        ((ts_eval_scan u (b.knots.take b.n_knots)).2 ≤ b.deg ∧
          ((ts_eval_scan u (b.knots.take b.n_knots)).1 ≤ b.deg ∨
            (ts_eval_scan u (b.knots.take b.n_knots)).1 >
              b.n_knots - b.deg + (ts_eval_scan u (b.knots.take b.n_knots)).2 - 1)))) ∧
    ((ts_bspline_evaluate b u).1 = TS_U_UNDEFINED →
      (ts_bspline_evaluate b u).2 = ts_deboornet_default) := by
  have hforward : (ts_bspline_evaluate b u).1 = TS_U_UNDEFINED →
      ((ts_eval_scan u (b.knots.take b.n_knots)).1 = 0 ∨
        ((ts_eval_scan u (b.knots.take b.n_knots)).1 = b.n_knots ∧
          (ts_eval_scan u (b.knots.take b.n_knots)).2 = 0) ∨
        ((ts_eval_scan u (b.knots.take b.n_knots)).2 ≤ b.deg ∧
          ((ts_eval_scan u (b.knots.take b.n_knots)).1 ≤ b.deg ∨
            (ts_eval_scan u (b.knots.take b.n_knots)).1 >
              b.n_knots - b.deg + (ts_eval_scan u (b.knots.take b.n_knots)).2 - 1))) := by
    intro hret
    by_contra hncond
    rcases ts_bspline_evaluate_not_err b u _ _ rfl rfl hncond with h | h | h | h <;>
      rw [hret] at h <;>
      norm_num [TS_U_UNDEFINED, TS_MULTIPLICITY] at h
  refine ⟨⟨hforward, ?_⟩, ?_⟩
  · intro hcond
    rw [ts_bspline_evaluate_err b u _ _ rfl rfl hcond]
  · intro hret
    rw [ts_bspline_evaluate_err b u _ _ rfl rfl (hforward hret)]

theorem C4_evaluate_domain_check_witness :
    (ts_bspline_evaluate bezierCubic 2).2 = ts_deboornet_default :=
  (C4_evaluate_domain_check bezierCubic 2 bezierCubic_valid).2
    (by norm_num [ts_bspline_evaluate, bezierCubic, ts_eval_scan, ts_fequals_eval,
      FLT_MAX_ABS_ERROR, FLT_MAX_REL_ERROR, TS_U_UNDEFINED])

theorem sadd_eval (a : Nat) (n : Int) (h : 0 ≤ n) :
    sadd a n = (a + n.toNat) % 2 ^ 64 := by
  have h2 := sadd_nat a n.toNat
  have h1 : (n.toNat : Int) = n := by omega
  rw [h1] at h2
  exact h2

theorem ts_bspline_evaluate_k_succ_le (b : tsBSpline) (u : ℚ)
    (h : 0 ≤ (ts_bspline_evaluate b u).1) :
    (ts_bspline_evaluate b u).2.k + 1 ≤ b.n_knots := by
  have hle := ts_eval_scan_fst_le u (b.knots.take b.n_knots)
  have hlen : (b.knots.take b.n_knots).length ≤ b.n_knots := by
    rw [List.length_take]
    omega
  unfold ts_bspline_evaluate at h ⊢
  simp only [] at h ⊢
  split_ifs at h ⊢ with h1 h2 h3 h4 h5 h6 <;>
    first
      | (show (ts_eval_scan u (b.knots.take b.n_knots)).1 - 1 + 1 ≤ b.n_knots; omega)
      | (norm_num [TS_U_UNDEFINED, TS_MULTIPLICITY] at h)

theorem replicate_getD (n i : Nat) (u d : ℚ) (h : i < n) :
    (List.replicate n u).getD i d = u := by
  rw [List.getD_eq_getElem _ _ (by simpa using h)]
  simp

def insertCounterB : tsBSpline :=
  { deg := 1, order := 2, dim := 1, n_ctrlp := 2, n_knots := 4,
    ctrlp := [-1, 1], knots := [0, 0, 1, 1] }

def insertCounterV : ℚ := 1/2 + 9/10^8

/-- Claim C1, counterexample: for the valid spline with `deg = 1`, control
points `(-1, 1)` and clamped knots `(0,0,1,1)`, inserting one knot at
`u = 1/2` succeeds (the net satisfies `s + 1 ≤ order`), yet at the in-domain
parameter `v = 1/2 + 9e-8` (within absolute tolerance of the inserted knot)
the original spline evaluates to `1.8e-7` while the insertion result snaps
`v` to `1/2` and evaluates to `0`; the two coordinates are not
`ts_fequals`-equal, refuting the pointwise-invariance clause of the claim. -/
theorem C1_knot_insertion_invariance_counterexample :
    ts_bspline_valid insertCounterB ∧
    (ts_bspline_evaluate insertCounterB (1/2)).1 = 0 ∧
    (ts_bspline_evaluate insertCounterB (1/2)).2.s + 1 ≤ insertCounterB.order ∧
    0 ≤ (ts_bspline_insert_knot insertCounterB (1/2) 1).1 ∧
    (ts_bspline_evaluate insertCounterB insertCounterV).1 = 0 ∧
    (ts_bspline_evaluate
      (ts_bspline_insert_knot insertCounterB (1/2) 1).2.1 insertCounterV).1 = 0 ∧
    ts_fequals
      ((ts_deboornet_result
        (ts_bspline_evaluate insertCounterB insertCounterV).2).getD 0 0)
      ((ts_deboornet_result (ts_bspline_evaluate
        (ts_bspline_insert_knot insertCounterB (1/2) 1).2.1 insertCounterV).2).getD 0 0) =
      false := by
  refine ⟨⟨⟨⟨rfl, rfl, by norm_num [insertCounterB], by norm_num [insertCounterB]⟩,
    rfl, rfl, by norm_num [insertCounterB], by norm_num [insertCounterB]⟩, ?_⟩, ?_⟩
  · norm_num [insertCounterB, List.pairwise_cons]
  · norm_num [ts_bspline_insert_knot, ts_internal_bspline_insert_knot, ts_bspline_resize,
      ts_bspline_new, ts_bspline_setup_knots, ts_knots_setup, listWrite, ts_insert_offA,
      ts_insert_gatherA, ts_insert_gatherC, sadd_eval, w64, insertCounterB, insertCounterV,
      ts_bspline_evaluate, ts_eval_scan, ts_fequals_eval, FLT_MAX_ABS_ERROR,
      FLT_MAX_REL_ERROR, TS_SUCCESS, ts_deboor_rows, ts_deboor_row, ts_deboornet_result,
      List.range_succ]

/-- Claim C1 (amended): for every valid BSpline `B` and any `u`, `n` for which
`ts_bspline_insert_knot` succeeds, the result has exactly `n_ctrlp + n`
control points and `n_knots + n` knots, the returned index is `net.k + n`,
and the `n` inserted knots (slots `net.k + 1 … net.k + n`) all equal `net.u`.
(The pointwise-evaluation clause of the original claim is refuted by the
counterexample: evaluation may differ beyond tolerance at parameters that
tolerantly snap to an inserted knot.) -/
theorem C1_insert_knot_amended (b : tsBSpline) (u : ℚ) (n : Nat)
    (hb : ts_bspline_valid b)
    (hret : 0 ≤ (ts_bspline_insert_knot b u n).1) :
    (ts_bspline_insert_knot b u n).2.1.n_ctrlp = b.n_ctrlp + n ∧
    (ts_bspline_insert_knot b u n).2.1.n_knots = b.n_knots + n ∧
    (ts_bspline_insert_knot b u n).2.2 = (ts_bspline_evaluate b u).2.k + n ∧
    ∀ i < n, (ts_bspline_insert_knot b u n).2.1.knots.getD
      ((ts_bspline_evaluate b u).2.k + 1 + i) 0 = (ts_bspline_evaluate b u).2.u := by
  obtain ⟨⟨hinv, hclen, hklen, hk64, hd64⟩, hsorted⟩ := hb
  unfold ts_bspline_insert_knot at hret ⊢
  simp only [] at hret ⊢
  by_cases hev : 0 ≤ (ts_bspline_evaluate b u).1
  · rw [if_pos hev] at hret ⊢
    have hint : 0 ≤ (ts_internal_bspline_insert_knot b (ts_bspline_evaluate b u).2 n).1 :=
      hret
    obtain ⟨-, -, -, hc, hk, hknots⟩ :=
      ts_internal_insert_spec b (ts_bspline_evaluate b u).2 n hinv hklen hk64
        (ts_bspline_evaluate_k_succ_le b u hev) hint
    refine ⟨hc, hk, ?_, ?_⟩
    · show (if 0 ≤ (ts_internal_bspline_insert_knot b (ts_bspline_evaluate b u).2 n).1
        then (ts_bspline_evaluate b u).2.k + n else 0) = (ts_bspline_evaluate b u).2.k + n
      rw [if_pos hint]
    · intro i hi
      show (ts_internal_bspline_insert_knot b (ts_bspline_evaluate b u).2 n).2.knots.getD
        ((ts_bspline_evaluate b u).2.k + 1 + i) 0 = (ts_bspline_evaluate b u).2.u
      rw [hknots]
      have hkk := ts_bspline_evaluate_k_succ_le b u hev
      have hlt : (b.knots.take ((ts_bspline_evaluate b u).2.k + 1)).length =
          (ts_bspline_evaluate b u).2.k + 1 := by
        rw [List.length_take]
        omega
      rw [List.append_assoc]
      rw [List.getD_append_right _ _ _ _ (by rw [hlt]; omega)]
      rw [hlt]
      have hidx : (ts_bspline_evaluate b u).2.k + 1 + i -
          ((ts_bspline_evaluate b u).2.k + 1) = i := by omega
      rw [hidx]
      rw [List.getD_append _ _ _ _ (by rw [List.length_replicate]; exact hi)]
      exact replicate_getD n i _ 0 hi
  · rw [if_neg hev] at hret
    exact absurd hret hev

theorem insertCounterB_valid : ts_bspline_valid insertCounterB :=
  ⟨⟨⟨rfl, rfl, by norm_num [insertCounterB], by norm_num [insertCounterB]⟩,
    rfl, rfl, by norm_num [insertCounterB], by norm_num [insertCounterB]⟩,
    by norm_num [insertCounterB, List.pairwise_cons]⟩

theorem C1_insert_knot_amended_witness :
    (ts_bspline_insert_knot insertCounterB (1/2) 1).2.1.n_ctrlp =
      insertCounterB.n_ctrlp + 1 ∧
    (ts_bspline_insert_knot insertCounterB (1/2) 1).2.1.n_knots =
      insertCounterB.n_knots + 1 ∧
    (ts_bspline_insert_knot insertCounterB (1/2) 1).2.2 =
      (ts_bspline_evaluate insertCounterB (1/2)).2.k + 1 ∧
    ∀ i < 1, (ts_bspline_insert_knot insertCounterB (1/2) 1).2.1.knots.getD
      ((ts_bspline_evaluate insertCounterB (1/2)).2.k + 1 + i) 0 =
      (ts_bspline_evaluate insertCounterB (1/2)).2.u :=
  C1_insert_knot_amended insertCounterB (1/2) 1 insertCounterB_valid
    (by norm_num [ts_bspline_insert_knot, ts_internal_bspline_insert_knot,
      ts_bspline_resize, ts_bspline_new, ts_bspline_setup_knots, ts_knots_setup,
      listWrite, ts_insert_offA, ts_insert_gatherA, ts_insert_gatherC, sadd_eval,
      w64, insertCounterB, ts_bspline_evaluate, ts_eval_scan, ts_fequals_eval,
      FLT_MAX_ABS_ERROR, FLT_MAX_REL_ERROR, TS_SUCCESS])

theorem two_pow_31_int : (2 : Int) ^ 31 = 2147483648 := by norm_num

theorem two_pow_64_int : (2 : Int) ^ 64 = 18446744073709551616 := by norm_num

theorem int_of_size_t_bounds (v : Nat) :
    -(2 : Int) ^ 31 ≤ int_of_size_t v ∧ int_of_size_t v < 2 ^ 31 := by
  unfold int_of_size_t
  rw [two_pow_31_int]
  have hm : v % 2 ^ 32 < 2 ^ 32 := Nat.mod_lt v (by norm_num)
  split_ifs with h
  · constructor <;> omega
  · constructor <;> omega

theorem listWrite_length (dst : List ℚ) (off : Nat) (src : List ℚ)
    (h : off + src.length ≤ dst.length) :
    (listWrite dst off src).length = dst.length := by
  unfold listWrite
  simp only [List.length_append, List.length_take, List.length_drop]
  omega

theorem ts_bspline_new_sane (deg dim n_ctrlp : Nat) (type : tsBSplineType)
    (h : 0 ≤ (ts_bspline_new deg dim n_ctrlp type).1) :
    ts_bspline_sane (ts_bspline_new deg dim n_ctrlp type).2 := by
  obtain ⟨hdim, hdn, hfit, heq⟩ := ts_bspline_new_success deg dim n_ctrlp type h
  rw [heq]
  unfold ts_bspline_setup_knots
  refine ⟨⟨rfl, rfl, hdn, hdim⟩, ?_, hfit⟩
  show (ts_knots_setup type deg (deg + 1) (n_ctrlp + deg + 1)
    (List.replicate (n_ctrlp + deg + 1) 0)).length = n_ctrlp + deg + 1
  cases type <;> simp [ts_knots_setup]

theorem ts_bspline_resize_sane (b : tsBSpline) (n : Int) (back : Nat)
    (hb : ts_bspline_sane b) (hlo : -(2 : Int) ^ 31 ≤ n) (hhi : n < 2 ^ 64)
    (hret : 0 ≤ (ts_bspline_resize b n back).1) :
    ts_bspline_sane (ts_bspline_resize b n back).2 := by
  obtain ⟨⟨ho, hnk, hdn, hdim⟩, hlen, hk64⟩ := hb
  rw [two_pow_31_int] at hlo
  rw [two_pow_64_int] at hhi
  have hk64' := hk64
  rw [two_pow_64_eq] at hk64'
  by_cases hn0 : n = 0
  · unfold ts_bspline_resize
    rw [if_pos hn0]
    exact ⟨⟨ho, hnk, hdn, hdim⟩, hlen, hk64⟩
  · unfold ts_bspline_resize at hret ⊢
    rw [if_neg hn0] at hret ⊢
    simp only [] at hret ⊢
    by_cases hc1 : sadd b.n_ctrlp n ≤ b.deg
    · rw [if_pos hc1] at hret
      norm_num [TS_DEG_GE_NCTRLP] at hret
    · rw [if_neg hc1] at hret ⊢
      by_cases hc2 : n < 0 ∧ b.n_ctrlp < sadd b.n_ctrlp n
      · rw [if_pos hc2] at hret
        norm_num [TS_OVER_UNDERFLOW] at hret
      · rw [if_neg hc2] at hret ⊢
        by_cases hc3 : (0 : Int) < n ∧ sadd b.n_ctrlp n < b.n_ctrlp
        · rw [if_pos hc3] at hret
          norm_num [TS_OVER_UNDERFLOW] at hret
        · rw [if_neg hc3] at hret ⊢
          have hA : (sadd b.n_ctrlp n : Int) = (b.n_ctrlp : Int) + n := by
            unfold sadd at hc1 hc2 hc3 ⊢
            rw [two_pow_64_int] at hc1 hc2 hc3 ⊢
            omega
          by_cases hnew : 0 ≤ (ts_bspline_new b.deg b.dim (sadd b.n_ctrlp n)
              tsBSplineType.TS_NONE).1
          · obtain ⟨hdim1, hdlt, hfit, heq⟩ :=
              ts_bspline_new_success b.deg b.dim (sadd b.n_ctrlp n)
                tsBSplineType.TS_NONE hnew
            have hfit' := hfit
            rw [two_pow_64_eq] at hfit'
            have hB : (sadd b.n_knots n : Int) = (b.n_knots : Int) + n := by
              unfold sadd
              rw [two_pow_64_int]
              omega
            rw [if_neg (by omega : ¬(ts_bspline_new b.deg b.dim (sadd b.n_ctrlp n)
              tsBSplineType.TS_NONE).1 < 0)]
            rw [heq]
            unfold ts_bspline_setup_knots
            simp only [ts_knots_setup]
            refine ⟨⟨rfl, rfl, hdlt, hdim1⟩, ?_, hfit⟩
            show (listWrite (List.replicate (sadd b.n_ctrlp n + b.deg + 1) (0 : ℚ))
                (if back = 0 ∧ 0 < n then n.toNat else 0)
                ((b.knots.drop (if back = 0 ∧ n < 0 then (-n).toNat else 0)).take
                  (if n < 0 then sadd b.n_knots n else b.n_knots))).length =
              sadd b.n_ctrlp n + b.deg + 1
            rw [listWrite_length]
            · rw [List.length_replicate]
            · simp only [List.length_take, List.length_drop, List.length_replicate, hlen]
              split_ifs <;> omega
          · exfalso
            push_neg at hnew
            rw [if_pos hnew] at hret
            omega

theorem ts_internal_insert_sane (b : tsBSpline) (net : tsDeBoorNet) (n : Nat)
    (hb : ts_bspline_sane b) (hkK : net.k + 1 ≤ b.n_knots)
    (hret : 0 ≤ (ts_internal_bspline_insert_knot b net n).1) :
    ts_bspline_sane (ts_internal_bspline_insert_knot b net n).2 := by
  obtain ⟨⟨ho, hnk, hdn, hdim⟩, hlen, hk64⟩ := hb
  have hk64' := hk64
  rw [two_pow_64_eq] at hk64'
  have hkey : n ≤ b.order ∧ 0 ≤ (ts_bspline_resize b (n : Int) 1).1 := by
    unfold ts_internal_bspline_insert_knot at hret
    simp only [] at hret
    by_cases hm : b.order < net.s + n
    · rw [if_pos hm] at hret
      norm_num [TS_MULTIPLICITY] at hret
    · rw [if_neg hm] at hret
      by_cases hi2 : 2 ^ 31 ≤ n % 2 ^ 32
      · rw [if_pos hi2] at hret
        norm_num [TS_OVER_UNDERFLOW] at hret
      · rw [if_neg hi2] at hret
        by_cases hrz : (ts_bspline_resize b (n : Int) 1).1 < 0
        · rw [if_pos hrz] at hret
          omega
        · exact ⟨by omega, by omega⟩
  obtain ⟨hnord, hres⟩ := hkey
  have hn64 : n < 2 ^ 64 := by
    rw [two_pow_64_eq]
    omega
  obtain ⟨hd2, ho2, hdim2, hc2, hk2, hknots2⟩ :=
    ts_internal_insert_spec b net n ⟨ho, hnk, hdn, hdim⟩ hlen hk64 hkK hret
  have hsane_r := ts_bspline_resize_sane b (n : Int) 1 ⟨⟨ho, hnk, hdn, hdim⟩, hlen, hk64⟩
    (by rw [two_pow_31_int]; omega) (by rw [two_pow_64_int]; rw [two_pow_64_eq] at hn64; omega)
    hres
  obtain ⟨-, -, -, -, hrk, -⟩ :=
    ts_bspline_resize_back_spec b n ⟨ho, hnk, hdn, hdim⟩ hlen hk64 hn64 hres
  obtain ⟨-, -, hr64⟩ := hsane_r
  rw [hrk] at hr64
  refine ⟨⟨?_, ?_, ?_, ?_⟩, ?_, ?_⟩
  · rw [ho2, hd2]
    exact ho
  · rw [hk2, hc2, ho2]
    omega
  · rw [hd2, hc2]
    omega
  · rw [hdim2]
    exact hdim
  · rw [hknots2, hk2]
    simp only [List.length_append, List.length_take, List.length_replicate,
      List.length_drop, hlen]
    omega
  · rw [hk2]
    exact hr64

theorem ts_bspline_insert_knot_sane (b : tsBSpline) (u : ℚ) (n : Nat)
    (hb : ts_bspline_sane b) (hret : 0 ≤ (ts_bspline_insert_knot b u n).1) :
    ts_bspline_sane (ts_bspline_insert_knot b u n).2.1 := by
  unfold ts_bspline_insert_knot at hret ⊢
  simp only [] at hret ⊢
  by_cases hev : 0 ≤ (ts_bspline_evaluate b u).1
  · rw [if_pos hev] at hret ⊢
    exact ts_internal_insert_sane b _ n hb (ts_bspline_evaluate_k_succ_le b u hev) hret
  · rw [if_neg hev] at hret
    exact absurd hret hev

theorem ts_bspline_split_sane (b : tsBSpline) (u : ℚ)
    (hb : ts_bspline_sane b) (hret : 0 ≤ (ts_bspline_split b u).1) :
    ts_bspline_sane (ts_bspline_split b u).2.1 := by
  unfold ts_bspline_split at hret ⊢
  simp only [] at hret ⊢
  by_cases h1 : 1 ≤ (ts_bspline_evaluate b u).1
  · rw [if_pos h1]
    exact hb
  · rw [if_neg h1] at hret ⊢
    by_cases h2 : (ts_bspline_evaluate b u).1 = 0
    · rw [if_pos h2] at hret ⊢
      exact ts_internal_insert_sane b _ _ hb
        (ts_bspline_evaluate_k_succ_le b u (by omega)) hret
    · rw [if_neg h2] at hret
      omega

theorem ts_bspline_to_beziers_loop_sane (order fuel : Nat) (bez : tsBSpline)
    (k : Nat) (hb : ts_bspline_sane bez)
    (hret : 0 ≤ (ts_bspline_to_beziers_loop order fuel bez k).1) :
    ts_bspline_sane (ts_bspline_to_beziers_loop order fuel bez k).2 := by
  induction fuel generalizing bez k with
  | zero =>
    unfold ts_bspline_to_beziers_loop at hret
    norm_num [TS_FUEL_EXHAUSTED] at hret
  | succ f ih =>
    unfold ts_bspline_to_beziers_loop at hret ⊢
    simp only [] at hret ⊢
    by_cases hcond : k < bez.n_knots - order
    · rw [if_pos hcond] at hret ⊢
      by_cases hsp : (ts_bspline_split bez (bez.knots.getD k 0)).1 < 0
      · rw [if_pos hsp] at hret
        omega
      · rw [if_neg hsp] at hret ⊢
        exact ih _ _ (ts_bspline_split_sane bez _ hb (by omega)) hret
    · rw [if_neg hcond]
      exact hb

theorem ts_bspline_to_beziers_sane (b : tsBSpline) (fuel : Nat)
    (hb : ts_bspline_sane b) (hret : 0 ≤ (ts_bspline_to_beziers b fuel).1) :
    ts_bspline_sane (ts_bspline_to_beziers b fuel).2 := by
  unfold ts_bspline_to_beziers at hret ⊢
  simp only [] at hret ⊢
  by_cases h1 : ts_fequals (b.knots.getD 0 0) (b.knots.getD b.deg 0) = true
  · rw [if_pos h1] at hret ⊢
    rw [if_neg (show ¬((TS_SUCCESS, b) : Int × tsBSpline).1 < 0 by
      norm_num [TS_SUCCESS])] at hret ⊢
    simp only [] at hret ⊢
    by_cases h2 : ts_fequals (b.knots.getD (b.n_knots - 1) 0)
        (b.knots.getD (b.n_knots - b.order) 0) = true
    · rw [if_pos h2] at hret ⊢
      rw [if_neg (show ¬((TS_SUCCESS, b) : Int × tsBSpline).1 < 0 by
        norm_num [TS_SUCCESS])] at hret ⊢
      simp only [] at hret ⊢
      exact ts_bspline_to_beziers_loop_sane b.order fuel b b.order hb hret
    · rw [if_neg h2] at hret ⊢
      set sp2 := ts_bspline_split b (b.knots.getD (b.n_knots - b.order) 0) with hsp2eq
      by_cases hsp2 : sp2.1 < 0
      · rw [if_pos hsp2] at hret ⊢
        rw [if_pos (show (sp2.1, sp2.2.1).1 < 0 from hsp2)] at hret
        simp only [] at hret
        omega
      · rw [if_neg hsp2] at hret ⊢
        set r2 := ts_bspline_resize sp2.2.1 (int_of_size_t ((wneg64 b.deg +
          wsub64 sp2.2.2 (wsub64 sp2.2.1.n_knots b.order)) % 2 ^ 64)) 1 with hr2eq
        by_cases hr2 : r2.1 < 0
        · rw [if_pos hr2] at hret
          omega
        · rw [if_neg hr2] at hret ⊢
          have hs2 : ts_bspline_sane r2.2 := by
            rw [hr2eq]
            refine ts_bspline_resize_sane _ _ 1
              (ts_bspline_split_sane b _ hb (by rw [← hsp2eq]; omega))
              (int_of_size_t_bounds _).1 ?_ (by rw [← hr2eq]; omega)
            have h3 := (int_of_size_t_bounds ((wneg64 b.deg +
              wsub64 sp2.2.2 (wsub64 sp2.2.1.n_knots b.order)) % 2 ^ 64)).2
            rw [two_pow_31_int] at h3
            rw [two_pow_64_int]
            omega
          exact ts_bspline_to_beziers_loop_sane b.order fuel r2.2 b.order hs2 hret
  · rw [if_neg h1] at hret ⊢
    set sp1 := ts_bspline_split b (b.knots.getD b.deg 0) with hsp1eq
    by_cases hsp1 : sp1.1 < 0
    · rw [if_pos hsp1] at hret ⊢
      rw [if_pos (show (sp1.1, sp1.2.1).1 < 0 from hsp1)] at hret
      simp only [] at hret
      omega
    · rw [if_neg hsp1] at hret ⊢
      set r1 := ts_bspline_resize sp1.2.1 (int_of_size_t ((wneg64 b.deg +
        wsub64 (w64 (b.deg * 2)) sp1.2.2) % 2 ^ 64)) 0 with hr1eq
      by_cases hr1 : r1.1 < 0
      · rw [if_pos hr1] at hret
        omega
      · rw [if_neg hr1] at hret ⊢
        have hs1 : ts_bspline_sane r1.2 := by
          rw [hr1eq]
          refine ts_bspline_resize_sane _ _ 0
            (ts_bspline_split_sane b _ hb (by rw [← hsp1eq]; omega))
            (int_of_size_t_bounds _).1 ?_ (by rw [← hr1eq]; omega)
          have h3 := (int_of_size_t_bounds ((wneg64 b.deg +
            wsub64 (w64 (b.deg * 2)) sp1.2.2) % 2 ^ 64)).2
          rw [two_pow_31_int] at h3
          rw [two_pow_64_int]
          omega
        by_cases h2 : ts_fequals (r1.2.knots.getD (r1.2.n_knots - 1) 0)
            (r1.2.knots.getD (r1.2.n_knots - b.order) 0) = true
        · rw [if_pos h2] at hret ⊢
          rw [if_neg (show ¬((TS_SUCCESS, r1.2) : Int × tsBSpline).1 < 0 by
            norm_num [TS_SUCCESS])] at hret ⊢
          simp only [] at hret ⊢
          exact ts_bspline_to_beziers_loop_sane b.order fuel r1.2 b.order hs1 hret
        · rw [if_neg h2] at hret ⊢
          set sp2 := ts_bspline_split r1.2 (r1.2.knots.getD (r1.2.n_knots - b.order) 0)
            with hsp2eq
          by_cases hsp2 : sp2.1 < 0
          · rw [if_pos hsp2] at hret ⊢
            rw [if_pos (show (sp2.1, sp2.2.1).1 < 0 from hsp2)] at hret
            simp only [] at hret
            omega
          · rw [if_neg hsp2] at hret ⊢
            set r2 := ts_bspline_resize sp2.2.1 (int_of_size_t ((wneg64 b.deg +
              wsub64 sp2.2.2 (wsub64 sp2.2.1.n_knots b.order)) % 2 ^ 64)) 1 with hr2eq
            by_cases hr2 : r2.1 < 0
            · rw [if_pos hr2] at hret
              omega
            · rw [if_neg hr2] at hret ⊢
              have hs2 : ts_bspline_sane r2.2 := by
                rw [hr2eq]
                refine ts_bspline_resize_sane _ _ 1
                  (ts_bspline_split_sane r1.2 _ hs1 (by rw [← hsp2eq]; omega))
                  (int_of_size_t_bounds _).1 ?_ (by rw [← hr2eq]; omega)
                have h3 := (int_of_size_t_bounds ((wneg64 b.deg +
                  wsub64 sp2.2.2 (wsub64 sp2.2.1.n_knots b.order)) % 2 ^ 64)).2
                rw [two_pow_31_int] at h3
                rw [two_pow_64_int]
                omega
              exact ts_bspline_to_beziers_loop_sane b.order fuel r2.2 b.order hs2 hret

/-- Claim C3: every operation that returns success leaves its output BSpline
satisfying the four structural invariants `order = deg + 1`,
`n_knots = n_ctrlp + order`, `n_ctrlp > deg` and `dim ≥ 1`: `ts_bspline_new`
unconditionally; `ts_bspline_copy`, `ts_bspline_resize` (with `n` in the
range of the C `int` argument), `ts_bspline_insert_knot`, `ts_bspline_split`
and `ts_bspline_to_beziers` whenever the input spline carries the invariants
together with the matching knot-buffer length and the `size_t` bound
(`ts_bspline_sane`). -/
theorem C3_invariants_preserved :
    (∀ (deg dim n_ctrlp : Nat) (type : tsBSplineType),
      0 ≤ (ts_bspline_new deg dim n_ctrlp type).1 →
      ts_bspline_inv (ts_bspline_new deg dim n_ctrlp type).2) ∧
    (∀ b : tsBSpline, ts_bspline_inv b → 0 ≤ (ts_bspline_copy b).1 →
      ts_bspline_inv (ts_bspline_copy b).2) ∧
    (∀ (b : tsBSpline) (n : Int) (back : Nat), ts_bspline_sane b →
      -(2 : Int) ^ 31 ≤ n → n < 2 ^ 31 →
      0 ≤ (ts_bspline_resize b n back).1 →
      ts_bspline_inv (ts_bspline_resize b n back).2) ∧
    (∀ (b : tsBSpline) (u : ℚ) (n : Nat), ts_bspline_sane b →
      0 ≤ (ts_bspline_insert_knot b u n).1 →
      ts_bspline_inv (ts_bspline_insert_knot b u n).2.1) ∧
    (∀ (b : tsBSpline) (u : ℚ), ts_bspline_sane b →
      0 ≤ (ts_bspline_split b u).1 →
      ts_bspline_inv (ts_bspline_split b u).2.1) ∧
    (∀ (b : tsBSpline) (fuel : Nat), ts_bspline_sane b →
      0 ≤ (ts_bspline_to_beziers b fuel).1 →
      ts_bspline_inv (ts_bspline_to_beziers b fuel).2) := by
  refine ⟨?_, ?_, ?_, ?_, ?_, ?_⟩
  · intro deg dim n_ctrlp type h
    exact (ts_bspline_new_sane deg dim n_ctrlp type h).1
  · intro b hb _
    exact hb
  · intro b n back hb hlo hhi hret
    refine (ts_bspline_resize_sane b n back hb hlo ?_ hret).1
    rw [two_pow_64_int]
    rw [two_pow_31_int] at hhi
    omega
  · intro b u n hb hret
    exact (ts_bspline_insert_knot_sane b u n hb hret).1
  · intro b u hb hret
    exact (ts_bspline_split_sane b u hb hret).1
  · intro b fuel hb hret
    exact (ts_bspline_to_beziers_sane b fuel hb hret).1

theorem ts_to_beziers_loop_stop (order fuel : Nat) (bez : tsBSpline) (k : Nat)
    (hf : fuel ≠ 0) (h : ¬ k < bez.n_knots - order) :
    ts_bspline_to_beziers_loop order fuel bez k = (TS_SUCCESS, bez) := by
  cases fuel with
  | zero => exact absurd rfl hf
  | succ f =>
    unfold ts_bspline_to_beziers_loop
    rw [if_neg h]

theorem ts_to_beziers_bothfeq (b : tsBSpline) (fuel : Nat)
    (h1 : ts_fequals (b.knots.getD 0 0) (b.knots.getD b.deg 0) = true)
    (h2 : ts_fequals (b.knots.getD (b.n_knots - 1) 0)
      (b.knots.getD (b.n_knots - b.order) 0) = true) :
    ts_bspline_to_beziers b fuel =
      ts_bspline_to_beziers_loop b.order fuel b b.order := by
  unfold ts_bspline_to_beziers
  simp only []
  rw [if_pos h1]
  rw [if_neg (show ¬((TS_SUCCESS, b) : Int × tsBSpline).1 < 0 by
    norm_num [TS_SUCCESS])]
  simp only []
  rw [if_pos h2]
  rw [if_neg (show ¬((TS_SUCCESS, b) : Int × tsBSpline).1 < 0 by
    norm_num [TS_SUCCESS])]

theorem C3_invariants_preserved_witness :
    ts_bspline_inv (ts_bspline_new 3 1 4 tsBSplineType.TS_CLAMPED).2 ∧
    ts_bspline_inv (ts_bspline_copy bezierCubic).2 ∧
    ts_bspline_inv (ts_bspline_resize bezierCubic 1 1).2 ∧
    ts_bspline_inv (ts_bspline_insert_knot insertCounterB (1/2) 1).2.1 ∧
    ts_bspline_inv (ts_bspline_split insertCounterB (1/2)).2.1 ∧
    ts_bspline_inv (ts_bspline_to_beziers bezierCubic 1).2 :=
  ⟨C3_invariants_preserved.1 3 1 4 tsBSplineType.TS_CLAMPED (by decide),
   C3_invariants_preserved.2.1 bezierCubic (by decide) (by decide),
   C3_invariants_preserved.2.2.1 bezierCubic 1 1 (by decide)
     (by norm_num) (by norm_num) (by decide),
   C3_invariants_preserved.2.2.2.1 insertCounterB (1/2) 1 (by decide)
     (by norm_num [ts_bspline_insert_knot, ts_internal_bspline_insert_knot,
       ts_bspline_resize, ts_bspline_new, ts_bspline_setup_knots, ts_knots_setup,
       listWrite, ts_insert_offA, ts_insert_gatherA, ts_insert_gatherC, sadd_eval,
       w64, insertCounterB, ts_bspline_evaluate, ts_eval_scan, ts_fequals_eval,
       FLT_MAX_ABS_ERROR, FLT_MAX_REL_ERROR, TS_SUCCESS]),
   C3_invariants_preserved.2.2.2.2.1 insertCounterB (1/2) (by decide)
     (by
       have hev : (ts_bspline_evaluate insertCounterB (1/2)).1 = 0 := by
         norm_num [ts_bspline_evaluate, insertCounterB, ts_eval_scan,
           ts_fequals_eval, FLT_MAX_ABS_ERROR, FLT_MAX_REL_ERROR]
       unfold ts_bspline_split
       simp only []
       rw [if_neg (by omega : ¬ 1 ≤ (ts_bspline_evaluate insertCounterB (1/2)).1),
         if_pos hev]
       show 0 ≤ (ts_internal_bspline_insert_knot insertCounterB
         (ts_bspline_evaluate insertCounterB (1/2)).2
         ((ts_bspline_evaluate insertCounterB (1/2)).2.h + 1)).1
       norm_num [ts_internal_bspline_insert_knot, ts_bspline_resize, ts_bspline_new,
         ts_bspline_setup_knots, ts_knots_setup, listWrite, ts_insert_offA,
         ts_insert_gatherA, ts_insert_gatherC, sadd_eval, Int.toNat, w64,
         insertCounterB, ts_bspline_evaluate, ts_eval_scan, ts_fequals_eval,
         FLT_MAX_ABS_ERROR, FLT_MAX_REL_ERROR, TS_SUCCESS]),
   C3_invariants_preserved.2.2.2.2.2 bezierCubic 1 (by decide)
     (by
       have h1 : ts_fequals (bezierCubic.knots.getD 0 0)
           (bezierCubic.knots.getD bezierCubic.deg 0) = true := by
         norm_num [bezierCubic, ts_fequals_eval, FLT_MAX_ABS_ERROR, FLT_MAX_REL_ERROR]
       have h2 : ts_fequals (bezierCubic.knots.getD (bezierCubic.n_knots - 1) 0)
           (bezierCubic.knots.getD (bezierCubic.n_knots - bezierCubic.order) 0) =
           true := by
         norm_num [bezierCubic, ts_fequals_eval, FLT_MAX_ABS_ERROR, FLT_MAX_REL_ERROR]
       rw [ts_to_beziers_bothfeq bezierCubic 1 h1 h2,
         ts_to_beziers_loop_stop _ _ _ _ (by norm_num) (by decide)]
       norm_num [TS_SUCCESS])⟩

theorem knots_sorted_getD (l : List ℚ) (hp : l.Pairwise (· ≤ ·)) (a c : Nat)
    (hac : a ≤ c) (hc : c < l.length) : l.getD a 0 ≤ l.getD c 0 := by
  rcases Nat.eq_or_lt_of_le hac with h | h
  · subst h
    exact le_refl _
  · rw [List.getD_eq_getElem l 0 (by omega), List.getD_eq_getElem l 0 hc]
    exact List.pairwise_iff_getElem.mp hp a c (by omega) hc h

theorem ts_eval_scan_pigeonhole (u : ℚ) (l : List ℚ) (K s : Nat)
    (hK : (ts_eval_scan u l).1 = K) (hs : (ts_eval_scan u l).2 = s)
    (hsK : s < K) (hKlen : K ≤ l.length) :
    ∃ j0, K - 1 - s ≤ j0 ∧ j0 ≤ K - 1 ∧ ts_fequals u (l.getD j0 0) = false := by
  by_contra hc
  push_neg at hc
  have hcount : s = (l.take K).countP (fun t => ts_fequals u t) := by
    have h2 := ts_eval_scan_snd u l
    rw [hK, hs] at h2
    exact h2
  have hseglen : ((l.take K).drop (K - 1 - s)).length = s + 1 := by
    simp only [List.length_drop, List.length_take]
    omega
  have hall : ∀ x ∈ (l.take K).drop (K - 1 - s), ts_fequals u x = true := by
    intro x hx
    obtain ⟨m, hm, hxe⟩ := List.mem_iff_getElem.mp hx
    have hmK : K - 1 - s + m < K := by
      rw [hseglen] at hm
      omega
    have hgets : ((l.take K).drop (K - 1 - s))[m] = l[K - 1 - s + m] := by
      rw [List.getElem_drop]
      exact List.getElem_take ..
    have hne := hc (K - 1 - s + m) (by omega) (by omega)
    rw [List.getD_eq_getElem l 0 (by omega)] at hne
    rw [← hxe, hgets]
    exact Bool.ne_false_iff.mp hne
  have hcnt2 : ((l.take K).drop (K - 1 - s)).countP (fun t => ts_fequals u t) = s + 1 := by
    rw [List.countP_eq_length.mpr hall, hseglen]
  have hsplit : (l.take K).countP (fun t => ts_fequals u t) =
      ((l.take K).take (K - 1 - s)).countP (fun t => ts_fequals u t) +
        ((l.take K).drop (K - 1 - s)).countP (fun t => ts_fequals u t) := by
    conv_lhs => rw [← List.take_append_drop (K - 1 - s) (l.take K)]
    exact List.countP_append ..
  omega

/-- Claim C8: for every valid BSpline and parameter `u` for which
`ts_bspline_evaluate` reaches the de Boor recursion (return code `0`, which
entails the domain checks passed and the multiplicity satisfies `s ≤ deg`),
every denominator `u_{i+deg-r+1} - u_i` used to form the interpolation
coefficient `a` is non-zero, for every recursion level `r ∈ [1, h]` and every
index `i ∈ [fst + r, lst]`. -/
theorem C8_deboor_denominators_nonzero (b : tsBSpline) (u : ℚ)
    (hb : ts_bspline_valid b)
    (hret : (ts_bspline_evaluate b u).1 = 0) :
    ∀ r, 1 ≤ r → r ≤ (ts_bspline_evaluate b u).2.h →
      ∀ i, (ts_bspline_evaluate b u).2.k - b.deg + r ≤ i →
        i ≤ (ts_bspline_evaluate b u).2.k - (ts_bspline_evaluate b u).2.s →
        b.knots.getD (i + b.deg - r + 1) 0 - b.knots.getD i 0 ≠ 0 := by
  obtain ⟨⟨⟨ho, hnk, hdn, hdim⟩, hclen, hlen, hk64, hd64⟩, hsorted⟩ := hb
  have hl : b.knots.take b.n_knots = b.knots := by
    rw [← hlen]
    exact List.take_length _
  set K := (ts_eval_scan u (b.knots.take b.n_knots)).1 with hKdef
  set s := (ts_eval_scan u (b.knots.take b.n_knots)).2 with hsdef
  obtain ⟨n1, n2, n3, n4, n5⟩ := ts_bspline_evaluate_code0_inv b u K s hKdef.symm hsdef.symm hret
  have hnet := ts_bspline_evaluate_code0 b u K s hKdef.symm hsdef.symm n1 n2 n3 n4 n5
  have hsdeg : s ≤ b.deg := by
    rw [ho] at n4 n5
    omega
  push_neg at n3
  obtain ⟨hKgt, hKle⟩ := n3 hsdeg
  rw [hl] at hKdef hsdef
  have hKlen : K ≤ b.knots.length := by
    have h2 := ts_eval_scan_fst_le u b.knots
    rw [← hKdef] at h2
    exact h2
  have hKlt : K < b.n_knots := by omega
  have hbreak : ts_fequals u (b.knots.getD K 0) = false ∧ u < b.knots.getD K 0 := by
    have h2 := ts_eval_scan_break u b.knots (by rw [← hKdef, hlen]; exact hKlt)
    rw [← hKdef] at h2
    exact h2
  obtain ⟨j0, hj0lo, hj0hi, hj0ne⟩ :=
    ts_eval_scan_pigeonhole u b.knots K s hKdef.symm hsdef.symm (by omega) hKlen
  have hj0le : b.knots.getD j0 0 ≤ u := by
    have h2 := ts_eval_scan_passed u b.knots j0 (by rw [← hKdef]; omega)
    rcases h2 with h2 | h2
    · rw [hj0ne] at h2
      exact absurd h2 (by simp)
    · exact h2
  have hks_le : b.knots.getD (K - 1 - s) 0 ≤ u :=
    le_trans (knots_sorted_getD b.knots hsorted (K - 1 - s) j0 hj0lo (by omega)) hj0le
  intro r hr1 hr2 i hilo hihi
  rw [hnet] at hr2 hilo hihi
  simp only [] at hr2 hilo hihi
  rw [if_neg (by omega : ¬ b.deg < s)] at hr2
  have hiK : b.knots.getD i 0 ≤ b.knots.getD (K - 1 - s) 0 :=
    knots_sorted_getD b.knots hsorted i (K - 1 - s) (by omega) (by omega)
  have hKup : b.knots.getD K 0 ≤ b.knots.getD (i + b.deg - r + 1) 0 :=
    knots_sorted_getD b.knots hsorted K (i + b.deg - r + 1) (by omega) (by omega)
  have hlt : b.knots.getD i 0 < b.knots.getD (i + b.deg - r + 1) 0 :=
    lt_of_le_of_lt (le_trans hiK hks_le) (lt_of_lt_of_le hbreak.2 hKup)
  exact sub_ne_zero_of_ne (ne_of_gt hlt)

theorem C8_deboor_denominators_nonzero_witness :
    bezierCubic.knots.getD (1 + bezierCubic.deg - 1 + 1) 0 -
      bezierCubic.knots.getD 1 0 ≠ 0 :=
  C8_deboor_denominators_nonzero bezierCubic (1/2) bezierCubic_valid
    (by norm_num [ts_bspline_evaluate, bezierCubic, ts_eval_scan, ts_fequals_eval,
      FLT_MAX_ABS_ERROR, FLT_MAX_REL_ERROR])
    1 (by norm_num)
    (by norm_num [ts_bspline_evaluate, bezierCubic, ts_eval_scan, ts_fequals_eval,
      FLT_MAX_ABS_ERROR, FLT_MAX_REL_ERROR])
    1
    (by norm_num [ts_bspline_evaluate, bezierCubic, ts_eval_scan, ts_fequals_eval,
      FLT_MAX_ABS_ERROR, FLT_MAX_REL_ERROR])
    (by norm_num [ts_bspline_evaluate, bezierCubic, ts_eval_scan, ts_fequals_eval,
      FLT_MAX_ABS_ERROR, FLT_MAX_REL_ERROR])

theorem ts_fequals_net_u (b : tsBSpline) (u : ℚ) (k : Nat) :
    ts_fequals u (if ts_fequals u (b.knots.getD k 0) then b.knots.getD k 0 else u) = true := by
  by_cases h : ts_fequals u (b.knots.getD k 0) = true
  · rw [if_pos h]
    exact h
  · rw [if_neg h]
    exact ts_fequals_refl u

/-- Claim C2: split behaviour.  For every valid BSpline and parameter `u`:
if the evaluation classifies `u` as an endpoint or an existing
full-multiplicity knot (codes 1/2), the split returns an unchanged copy with
`k' = net.k`; if the evaluation reaches the de Boor case (code 0), the split
performs the internal insertion of `net.h + 1` knots, and on success the
result has `n_knots + net.h + 1` knots of which exactly `order` are
tolerantly equal to `u`, with `k' = net.k + net.h + 1`; and evaluation
failures propagate with a zeroed output. -/
theorem C2_split_behaviour (b : tsBSpline) (u : ℚ) (hb : ts_bspline_valid b) :
    (((ts_bspline_evaluate b u).1 = 1 ∨ (ts_bspline_evaluate b u).1 = 2) →
      ts_bspline_split b u = (TS_SUCCESS, b, (ts_bspline_evaluate b u).2.k)) ∧
    ((ts_bspline_evaluate b u).1 = 0 →
      (ts_bspline_split b u).1 =
        (ts_internal_bspline_insert_knot b (ts_bspline_evaluate b u).2
          ((ts_bspline_evaluate b u).2.h + 1)).1 ∧
      (0 ≤ (ts_bspline_split b u).1 →
        (ts_bspline_split b u).2.1.n_knots =
          b.n_knots + (ts_bspline_evaluate b u).2.h + 1 ∧
        ((ts_bspline_split b u).2.1.knots.countP fun t => ts_fequals u t) =
          b.order ∧
        (ts_bspline_split b u).2.2 =
          (ts_bspline_evaluate b u).2.k + (ts_bspline_evaluate b u).2.h + 1)) ∧
    ((ts_bspline_evaluate b u).1 < 0 →
      ts_bspline_split b u = ((ts_bspline_evaluate b u).1, ts_bspline_default, 0)) := by
  obtain ⟨⟨⟨ho, hnk, hdn, hdim⟩, hclen, hlen, hk64, hd64⟩, hsorted⟩ := hb
  have hl : b.knots.take b.n_knots = b.knots := by
    rw [← hlen]
    exact List.take_length _
  refine ⟨?_, ?_, ?_⟩
  · intro h12
    unfold ts_bspline_split
    simp only [ts_bspline_copy]
    rw [if_pos (by omega : 1 ≤ (ts_bspline_evaluate b u).1)]
    rw [if_pos (by norm_num [TS_SUCCESS] :
      0 ≤ ((TS_SUCCESS, b) : Int × tsBSpline).1)]
  · intro hev0
    unfold ts_bspline_split
    simp only []
    rw [if_neg (by omega : ¬ 1 ≤ (ts_bspline_evaluate b u).1), if_pos hev0]
    refine ⟨rfl, ?_⟩
    intro hsp
    have hins : 0 ≤ (ts_internal_bspline_insert_knot b (ts_bspline_evaluate b u).2
        ((ts_bspline_evaluate b u).2.h + 1)).1 := hsp
    obtain ⟨hd2, ho2, hdim2, hc2, hk2, hknots2⟩ :=
      ts_internal_insert_spec b (ts_bspline_evaluate b u).2
        ((ts_bspline_evaluate b u).2.h + 1) ⟨ho, hnk, hdn, hdim⟩ hlen hk64
        (ts_bspline_evaluate_k_succ_le b u (by omega)) hins
    refine ⟨hk2, ?_, ?_⟩
    · -- the multiplicity of u in the result knot vector is exactly order
      set K := (ts_eval_scan u (b.knots.take b.n_knots)).1 with hKdef
      set s := (ts_eval_scan u (b.knots.take b.n_knots)).2 with hsdef
      obtain ⟨n1, n2, n3, n4, n5⟩ :=
        ts_bspline_evaluate_code0_inv b u K s hKdef.symm hsdef.symm hev0
      have hnet := ts_bspline_evaluate_code0 b u K s hKdef.symm hsdef.symm n1 n2 n3 n4 n5
      have hsdeg : s ≤ b.deg := by
        rw [ho] at n4 n5
        omega
      rw [hl] at hKdef hsdef
      have hKlen : K ≤ b.knots.length := by
        have h2 := ts_eval_scan_fst_le u b.knots
        rw [← hKdef] at h2
        exact h2
      have hcount : s = (b.knots.take K).countP (fun t => ts_fequals u t) := by
        have h2 := ts_eval_scan_snd u b.knots
        rw [← hKdef, ← hsdef] at h2
        exact h2
      have hnetk : (ts_bspline_evaluate b u).2.k = K - 1 := by rw [hnet]
      have hneth : (ts_bspline_evaluate b u).2.h = b.deg - s := by
        rw [hnet]
        simp only []
        rw [if_neg (by omega : ¬ b.deg < s)]
      have hK1 : (ts_bspline_evaluate b u).2.k + 1 = K := by
        rw [hnetk]
        omega
      have hfequ : ts_fequals u (ts_bspline_evaluate b u).2.u = true := by
        rw [hnet]
        exact ts_fequals_net_u b u (K - 1)
      rw [hknots2, hK1]
      rw [List.countP_append, List.countP_append]
      have hc1 : (b.knots.take K).countP (fun t => ts_fequals u t) = s := hcount.symm
      have hcrep : (List.replicate ((ts_bspline_evaluate b u).2.h + 1)
          (ts_bspline_evaluate b u).2.u).countP (fun t => ts_fequals u t) =
          (ts_bspline_evaluate b u).2.h + 1 := by
        rw [List.countP_eq_length.mpr, List.length_replicate]
        intro a ha
        rw [List.eq_of_mem_replicate ha]
        exact hfequ
      have hcdrop : (b.knots.drop K).countP (fun t => ts_fequals u t) = 0 := by
        rw [List.countP_eq_zero]
        intro x hx
        obtain ⟨m, hm, hxe⟩ := List.mem_iff_getElem.mp hx
        have hmlen : K + m < b.knots.length := by
          rw [List.length_drop] at hm
          omega
        have hKlt : K < b.n_knots := by
          rw [← hlen]
          omega
        have hbreak := ts_eval_scan_break u b.knots (by rw [← hKdef, hlen]; exact hKlt)
        rw [← hKdef] at hbreak
        rw [← hxe]
        have hxel : (b.knots.drop K)[m] = b.knots.getD (K + m) 0 := by
          rw [List.getD_eq_getElem b.knots 0 hmlen]
          exact List.getElem_drop ..
        rw [hxel]
        intro hcon
        have hmono := ts_fequals_mono_right hcon hbreak.2
          (knots_sorted_getD b.knots hsorted K (K + m) (by omega) hmlen)
        rw [hbreak.1] at hmono
        exact Bool.false_ne_true hmono
      rw [hc1, hcrep, hcdrop, hneth, ho]
      omega
    · show (if 0 ≤ (ts_internal_bspline_insert_knot b (ts_bspline_evaluate b u).2
        ((ts_bspline_evaluate b u).2.h + 1)).1 then
          (ts_bspline_evaluate b u).2.k + (ts_bspline_evaluate b u).2.h + 1 else 0) =
        (ts_bspline_evaluate b u).2.k + (ts_bspline_evaluate b u).2.h + 1
      rw [if_pos hins]
  · intro hneg
    unfold ts_bspline_split
    simp only []
    rw [if_neg (by omega : ¬ 1 ≤ (ts_bspline_evaluate b u).1),
      if_neg (by omega : ¬ (ts_bspline_evaluate b u).1 = 0)]

theorem C2_split_behaviour_witness :
    (ts_bspline_split insertCounterB (1/2)).2.1.n_knots =
      insertCounterB.n_knots + (ts_bspline_evaluate insertCounterB (1/2)).2.h + 1 ∧
    ((ts_bspline_split insertCounterB (1/2)).2.1.knots.countP fun t =>
      ts_fequals (1/2) t) = insertCounterB.order ∧
    (ts_bspline_split insertCounterB (1/2)).2.2 =
      (ts_bspline_evaluate insertCounterB (1/2)).2.k +
        (ts_bspline_evaluate insertCounterB (1/2)).2.h + 1 :=
  ((C2_split_behaviour insertCounterB (1/2) insertCounterB_valid).2.1
      (by norm_num [ts_bspline_evaluate, insertCounterB, ts_eval_scan, ts_fequals_eval,
        FLT_MAX_ABS_ERROR, FLT_MAX_REL_ERROR])).2
    (by
      have hev : (ts_bspline_evaluate insertCounterB (1/2)).1 = 0 := by
        norm_num [ts_bspline_evaluate, insertCounterB, ts_eval_scan,
          ts_fequals_eval, FLT_MAX_ABS_ERROR, FLT_MAX_REL_ERROR]
      unfold ts_bspline_split
      simp only []
      rw [if_neg (by omega : ¬ 1 ≤ (ts_bspline_evaluate insertCounterB (1/2)).1),
        if_pos hev]
      show 0 ≤ (ts_internal_bspline_insert_knot insertCounterB
        (ts_bspline_evaluate insertCounterB (1/2)).2
        ((ts_bspline_evaluate insertCounterB (1/2)).2.h + 1)).1
      norm_num [ts_internal_bspline_insert_knot, ts_bspline_resize, ts_bspline_new,
        ts_bspline_setup_knots, ts_knots_setup, listWrite, ts_insert_offA,
        ts_insert_gatherA, ts_insert_gatherC, sadd_eval, Int.toNat, w64,
        insertCounterB, ts_bspline_evaluate, ts_eval_scan, ts_fequals_eval,
        FLT_MAX_ABS_ERROR, FLT_MAX_REL_ERROR, TS_SUCCESS])

theorem ts_fequals_gap (u t : ℚ) (ht : 0 ≤ t) (h1 : 1/10^7 < u - t)
    (h2 : u/10^5 < u - t) : ts_fequals u t = false := by
  by_contra hc
  rw [Bool.not_eq_false, ts_fequals_iff] at hc
  have hupos : 0 < u := by linarith
  have habs : |u - t| = u - t := abs_of_pos (by linarith)
  have hmax : max |u| |t| = u := by
    rw [abs_of_pos hupos, abs_of_nonneg ht]
    exact max_eq_left (by linarith)
  rcases hc with hc | hc
  · rw [habs] at hc
    norm_num [FLT_MAX_ABS_ERROR] at hc
    linarith
  · rw [habs, hmax] at hc
    norm_num [FLT_MAX_REL_ERROR] at hc
    linarith

theorem ts_fequals_near_one (u : ℚ) (h1 : 1 ≤ u) (h2 : u ≤ 1 + 2/10^7) :
    ts_fequals u 1 = true := by
  rw [ts_fequals_iff]
  right
  have habs : |u - 1| = u - 1 := abs_of_nonneg (by linarith)
  have hmax : max |u| |1| = u := by
    rw [abs_of_pos (by linarith : (0:ℚ) < u), abs_one]
    exact max_eq_left h1
  rw [habs, hmax]
  norm_num [FLT_MAX_REL_ERROR]
  linarith

theorem ts_fequals_zero_pos (t : ℚ) (h : 1/10^7 < t) : ts_fequals 0 t = false := by
  by_contra hc
  rw [Bool.not_eq_false, ts_fequals_iff] at hc
  have htpos : 0 < t := by linarith
  have habs : |(0:ℚ) - t| = t := by
    rw [zero_sub, abs_neg, abs_of_pos htpos]
  have hmax : max |(0:ℚ)| |t| = t := by
    rw [abs_zero, abs_of_pos htpos]
    exact max_eq_right (le_of_lt htpos)
  rcases hc with hc | hc
  · rw [habs] at hc
    norm_num [FLT_MAX_ABS_ERROR] at hc
    linarith
  · rw [habs, hmax] at hc
    norm_num [FLT_MAX_REL_ERROR] at hc
    linarith

theorem clamped_knots_decomp (deg n_knots : Nat) (old : List ℚ)
    (h : 2 * deg + 2 ≤ n_knots) :
    ts_knots_setup tsBSplineType.TS_CLAMPED deg (deg + 1) n_knots old =
      List.replicate (deg + 1) (0 : ℚ) ++
        ((((List.range (n_knots - 2 * deg - 2)).map fun j =>
          ((j + 1 : Nat) : ℚ) / ((n_knots - 2 * deg - 1 : Nat) : ℚ))) ++
          List.replicate (deg + 1) (1 : ℚ)) := by
  apply List.ext_getElem
  · rw [ts_knots_setup_clamped_length]
    simp only [List.length_append, List.length_replicate, List.length_map,
      List.length_range]
    omega
  · intro i hi1 hi2
    have hi1n : i < n_knots := by
      have h2 := hi1
      rwa [ts_knots_setup_clamped_length] at h2
    rw [← List.getD_eq_getElem _ 0 hi1, ← List.getD_eq_getElem _ 0 hi2]
    rw [ts_knots_setup_clamped_getD deg (deg + 1) n_knots old i hi1n]
    by_cases hc1 : i < deg + 1
    · rw [if_pos hc1]
      rw [List.getD_append _ _ _ _ (by rw [List.length_replicate]; omega)]
      rw [replicate_getD _ _ _ _ hc1]
    · rw [if_neg hc1]
      rw [List.getD_append_right _ _ _ _ (by rw [List.length_replicate]; omega)]
      rw [List.length_replicate]
      by_cases hc2 : i < n_knots - (deg + 1)
      · rw [if_pos hc2]
        rw [List.getD_append _ _ _ _
          (by rw [List.length_map, List.length_range]; omega)]
        rw [List.getD_eq_getElem _ _
          (by rw [List.length_map, List.length_range]; omega)]
        rw [List.getElem_map, List.getElem_range]
      · rw [if_neg hc2]
        rw [List.getD_append_right _ _ _ _
          (by rw [List.length_map, List.length_range]; omega)]
        rw [List.length_map, List.length_range]
        rw [replicate_getD _ _ _ _ (by omega)]

theorem clamped_knots_sorted (deg n_knots : Nat) (old : List ℚ)
    (h : 2 * deg + 2 ≤ n_knots) :
    (ts_knots_setup tsBSplineType.TS_CLAMPED deg (deg + 1) n_knots old).Pairwise
      (· ≤ ·) := by
  rw [List.pairwise_iff_getElem]
  intro i j hi hj hij
  rw [ts_knots_setup_clamped_length] at hi hj
  rw [← List.getD_eq_getElem _ 0 (by rw [ts_knots_setup_clamped_length]; exact hi),
    ← List.getD_eq_getElem _ 0 (by rw [ts_knots_setup_clamped_length]; exact hj)]
  rw [ts_knots_setup_clamped_getD _ _ _ _ i hi, ts_knots_setup_clamped_getD _ _ _ _ j hj]
  have hdd : (0:ℚ) < ((n_knots - 2*deg - 1 : Nat) : ℚ) := by
    exact_mod_cast (by omega : 0 < n_knots - 2*deg - 1)
  by_cases hi1 : i < deg + 1
  · rw [if_pos hi1]
    by_cases hj1 : j < deg + 1
    · rw [if_pos hj1]
    · rw [if_neg hj1]
      by_cases hj2 : j < n_knots - (deg + 1)
      · rw [if_pos hj2]
        positivity
      · rw [if_neg hj2]
        norm_num
  · rw [if_neg hi1]
    by_cases hi2 : i < n_knots - (deg + 1)
    · rw [if_pos hi2]
      rw [if_neg (by omega : ¬ j < deg + 1)]
      by_cases hj2 : j < n_knots - (deg + 1)
      · rw [if_pos hj2]
        rw [div_le_div_iff hdd hdd]
        have hc : ((i - (deg+1) + 1 : Nat) : ℚ) ≤ ((j - (deg+1) + 1 : Nat) : ℚ) := by
          exact_mod_cast (by omega : i - (deg+1) + 1 ≤ j - (deg+1) + 1)
        nlinarith
      · rw [if_neg hj2]
        rw [div_le_one hdd]
        exact_mod_cast (by omega : i - (deg+1) + 1 ≤ n_knots - 2*deg - 1)
    · rw [if_neg hi2]
      rw [if_neg (by omega : ¬ j < deg + 1), if_neg (by omega : ¬ j < n_knots - (deg + 1))]

theorem clamped_mem_bounds (deg n_knots : Nat) (old : List ℚ) (t : ℚ)
    (h : 2 * deg + 2 ≤ n_knots)
    (ht : t ∈ ts_knots_setup tsBSplineType.TS_CLAMPED deg (deg + 1) n_knots old) :
    0 ≤ t ∧ t ≤ 1 := by
  rw [clamped_knots_decomp deg n_knots old h] at ht
  simp only [List.mem_append, List.mem_replicate, List.mem_map, List.mem_range] at ht
  rcases ht with ⟨-, rfl⟩ | ⟨⟨j, hj, rfl⟩ | ⟨-, rfl⟩⟩
  · norm_num
  · constructor
    · positivity
    · rw [div_le_one (by exact_mod_cast (by omega : 0 < n_knots - 2*deg - 1))]
      exact_mod_cast (by omega : j + 1 ≤ n_knots - 2*deg - 1)
  · norm_num

theorem clamped_mid_not_feq_hi (u : ℚ) (j dd : Nat) (hj : j + 2 ≤ dd)
    (hdlt : dd < 100000) (hu1 : 1 ≤ u) (hu2 : u ≤ 1 + 2/10^7) :
    ts_fequals u (((j + 1 : Nat) : ℚ) / ((dd : Nat) : ℚ)) = false := by
  have hddpos : (0:ℚ) < ((dd : Nat) : ℚ) := by exact_mod_cast (by omega : 0 < dd)
  have h1 : ((j + 1 : Nat) : ℚ) ≤ ((dd : Nat) : ℚ) - 1 := by
    have h2 : ((j + 1 : Nat) : ℚ) + 1 ≤ ((dd : Nat) : ℚ) := by
      exact_mod_cast (by omega : j + 1 + 1 ≤ dd)
    linarith
  have hfrac : ((j + 1 : Nat) : ℚ) / ((dd : Nat) : ℚ) ≤ 1 - 1 / ((dd : Nat) : ℚ) := by
    have h3 : (((dd : Nat) : ℚ) - 1) / ((dd : Nat) : ℚ) = 1 - 1 / ((dd : Nat) : ℚ) := by
      field_simp
    rw [← h3, div_le_div_iff hddpos hddpos]
    nlinarith
  have hdinv : (1:ℚ) / 99999 ≤ 1 / ((dd : Nat) : ℚ) := by
    apply one_div_le_one_div_of_le hddpos
    exact_mod_cast (by omega : dd ≤ 99999)
  apply ts_fequals_gap
  · positivity
  · have hn : (1:ℚ)/10^7 < 1/99999 := by norm_num
    linarith
  · have hn : ((1:ℚ) + 2/10^7)/10^5 < 1/99999 := by norm_num
    linarith

theorem clamped_eval_hi (b : tsBSpline) (u : ℚ)
    (hb : ts_bspline_clamped b) (hd : b.n_ctrlp - b.deg < 100000)
    (hu1 : 1 ≤ u) (hu2 : u ≤ 1 + 2/10^7) :
    (ts_bspline_evaluate b u).1 = 1 ∧
      ts_deboornet_result (ts_bspline_evaluate b u).2 =
        (b.ctrlp.drop ((b.n_ctrlp - 1) * b.dim)).take b.dim := by
  obtain ⟨⟨⟨⟨ho, hnk, hdn, hdim⟩, hclen, hlen, hk64, hd64⟩, hsorted⟩, hknots⟩ := hb
  rw [ho] at hknots
  have hbig : 2 * b.deg + 2 ≤ b.n_knots := by omega
  have hl : b.knots.take b.n_knots = b.knots := by
    rw [← hlen]
    exact List.take_length _
  have hallpass : ∀ t ∈ b.knots, ts_fequals u t = true ∨ ¬ u < t := by
    intro t ht
    right
    rw [hknots] at ht
    exact not_lt.mpr (le_trans (clamped_mem_bounds b.deg b.n_knots [] t hbig ht).2 hu1)
  have hscan := ts_eval_scan_all_pass u b.knots hallpass
  have hcnt : b.knots.countP (fun t => ts_fequals u t) = b.deg + 1 := by
    rw [hknots, clamped_knots_decomp b.deg b.n_knots [] hbig]
    rw [List.countP_append, List.countP_append]
    have hz : (List.replicate (b.deg + 1) (0:ℚ)).countP (fun t => ts_fequals u t) = 0 := by
      rw [List.countP_eq_zero]
      intro a ha
      rw [List.eq_of_mem_replicate ha]
      have hf : ts_fequals u 0 = false :=
        ts_fequals_gap u 0 le_rfl (by norm_num; linarith) (by linarith)
      simp [hf]
    have hm : ((List.range (b.n_knots - 2*b.deg - 2)).map fun j =>
        ((j + 1 : Nat) : ℚ) / ((b.n_knots - 2*b.deg - 1 : Nat) : ℚ)).countP
        (fun t => ts_fequals u t) = 0 := by
      rw [List.countP_eq_zero]
      intro a ha
      rw [List.mem_map] at ha
      obtain ⟨j, hj, rfl⟩ := ha
      rw [List.mem_range] at hj
      have hf := clamped_mid_not_feq_hi u j (b.n_knots - 2*b.deg - 1)
        (by omega) (by omega) hu1 hu2
      rw [(by push_cast; ring : ((j + 1 : Nat) : ℚ) = (j : ℚ) + 1)] at hf
      simp [hf]
    have ho1 : (List.replicate (b.deg + 1) (1:ℚ)).countP (fun t => ts_fequals u t) =
        b.deg + 1 := by
      rw [List.countP_eq_length.mpr, List.length_replicate]
      intro a ha
      rw [List.eq_of_mem_replicate ha]
      simp [ts_fequals_near_one u hu1 hu2]
    rw [hz, hm, ho1]
    omega
  have hK : (ts_eval_scan u (b.knots.take b.n_knots)).1 = b.n_knots := by
    rw [hl, hscan]
    exact hlen
  have hs : (ts_eval_scan u (b.knots.take b.n_knots)).2 = b.deg + 1 := by
    rw [hl, hscan]
    exact hcnt
  have hrec := ts_bspline_evaluate_code1 b u b.n_knots (b.deg + 1) hK hs
    (by omega) (by omega) (by omega) (by omega) (by omega)
    (by right; rfl)
  refine ⟨by rw [hrec], ?_⟩
  rw [hrec]
  unfold ts_deboornet_result
  simp only []
  rw [if_neg (by omega : ¬ b.n_knots - 1 = b.deg)]
  rw [(by omega : b.n_knots - 1 - (b.deg + 1) = b.n_ctrlp - 1)]
  rw [List.drop_zero, List.take_take]
  simp

theorem clamped_eval_relfail (b : tsBSpline) (hb : ts_bspline_clamped b) :
    ts_bspline_evaluate b (1 + 2 * FLT_MAX_REL_ERROR) =
      (TS_U_UNDEFINED, ts_deboornet_default) := by
  obtain ⟨⟨⟨⟨ho, hnk, hdn, hdim⟩, hclen, hlen, hk64, hd64⟩, hsorted⟩, hknots⟩ := hb
  rw [ho] at hknots
  have hbig : 2 * b.deg + 2 ≤ b.n_knots := by omega
  have hl : b.knots.take b.n_knots = b.knots := by
    rw [← hlen]
    exact List.take_length _
  have hu : (1 + 2 * FLT_MAX_REL_ERROR : ℚ) = 1 + 2/10^5 := by
    norm_num [FLT_MAX_REL_ERROR]
  rw [hu]
  have hbounds : ∀ t ∈ b.knots, 0 ≤ t ∧ t ≤ 1 := by
    intro t ht
    rw [hknots] at ht
    exact clamped_mem_bounds b.deg b.n_knots [] t hbig ht
  have hallpass : ∀ t ∈ b.knots, ts_fequals (1 + 2/10^5) t = true ∨ ¬ (1 + 2/10^5 : ℚ) < t := by
    intro t ht
    right
    have := (hbounds t ht).2
    intro hcon
    linarith
  have hscan := ts_eval_scan_all_pass (1 + 2/10^5) b.knots hallpass
  have hcnt : b.knots.countP (fun t => ts_fequals (1 + 2/10^5) t) = 0 := by
    rw [List.countP_eq_zero]
    intro t ht
    obtain ⟨ht0, ht1⟩ := hbounds t ht
    have hf : ts_fequals (1 + 2/10^5) t = false :=
      ts_fequals_gap _ t ht0 (by norm_num; linarith) (by norm_num; linarith)
    simp [hf]
  exact ts_bspline_evaluate_err b _ b.n_knots 0
    (by rw [hl, hscan]; exact hlen)
    (by rw [hl, hscan]; exact hcnt)
    (Or.inr (Or.inl ⟨rfl, rfl⟩))

theorem clamped_eval_zero (b : tsBSpline)
    (hb : ts_bspline_clamped b) (hd : b.n_ctrlp - b.deg < 100000) :
    (ts_bspline_evaluate b 0).1 = 1 ∧
      ts_deboornet_result (ts_bspline_evaluate b 0).2 = b.ctrlp.take b.dim := by
  obtain ⟨⟨⟨⟨ho, hnk, hdn, hdim⟩, hclen, hlen, hk64, hd64⟩, hsorted⟩, hknots⟩ := hb
  rw [ho] at hknots
  have hbig : 2 * b.deg + 2 ≤ b.n_knots := by omega
  have hl : b.knots.take b.n_knots = b.knots := by
    rw [← hlen]
    exact List.take_length _
  have hddinv : (1:ℚ)/10^7 < 1 / ((b.n_knots - 2*b.deg - 1 : Nat) : ℚ) := by
    have hpos : (0:ℚ) < ((b.n_knots - 2*b.deg - 1 : Nat) : ℚ) := by
      exact_mod_cast (by omega : 0 < b.n_knots - 2*b.deg - 1)
    have hle : (1:ℚ)/99999 ≤ 1 / ((b.n_knots - 2*b.deg - 1 : Nat) : ℚ) := by
      apply one_div_le_one_div_of_le hpos
      exact_mod_cast (by omega : b.n_knots - 2*b.deg - 1 ≤ 99999)
    have : (1:ℚ)/10^7 < 1/99999 := by norm_num
    linarith
  have hrest : ts_eval_scan 0 (((List.range (b.n_knots - 2*b.deg - 2)).map fun j =>
      ((j + 1 : Nat) : ℚ) / ((b.n_knots - 2*b.deg - 1 : Nat) : ℚ)) ++
      List.replicate (b.deg + 1) (1:ℚ)) = (0, 0) := by
    rcases Nat.eq_zero_or_pos (b.n_knots - 2*b.deg - 2) with hm | hm
    · rw [hm]
      simp only [List.range_zero, List.map_nil, List.nil_append]
      have hrep : List.replicate (b.deg + 1) (1:ℚ) = 1 :: List.replicate b.deg 1 :=
        List.replicate_succ ..
      rw [hrep]
      exact ts_eval_scan_cons_break 0 1 _ (ts_fequals_zero_pos 1 (by norm_num))
        (by norm_num)
    · obtain ⟨m', hm'⟩ := Nat.exists_eq_add_of_lt hm
      rw [(by omega : b.n_knots - 2*b.deg - 2 = m' + 1)]
      rw [List.range_succ_eq_map, List.map_cons, List.cons_append]
      apply ts_eval_scan_cons_break
      · have h01 : (((0 + 1 : Nat) : ℚ)) = 1 := by norm_num
        rw [h01]
        exact ts_fequals_zero_pos _ (by rw [one_div] at hddinv ⊢; simpa using hddinv)
      · positivity
  have hz0 : ∀ t ∈ List.replicate (b.deg + 1) (0:ℚ),
      ts_fequals 0 t = true ∨ ¬ (0:ℚ) < t := by
    intro t ht
    rw [List.eq_of_mem_replicate ht]
    exact Or.inl (ts_fequals_refl 0)
  have hscan : ts_eval_scan 0 b.knots = (b.deg + 1, b.deg + 1) := by
    rw [hknots, clamped_knots_decomp b.deg b.n_knots [] hbig]
    rw [ts_eval_scan_append_pass 0 _ _ hz0, hrest]
    simp only [List.length_replicate]
    rw [List.countP_eq_length.mpr, List.length_replicate]
    · norm_num
    · intro a ha
      rw [List.eq_of_mem_replicate ha]
      exact ts_fequals_refl 0
  have hrec := ts_bspline_evaluate_code1 b 0 (b.deg + 1) (b.deg + 1)
    (by rw [hl, hscan]) (by rw [hl, hscan])
    (by omega) (by omega) (by omega) (by omega) (by omega)
    (by left; omega)
  refine ⟨by rw [hrec], ?_⟩
  rw [hrec]
  unfold ts_deboornet_result
  simp only []
  rw [if_pos (by omega : b.deg + 1 - 1 = b.deg)]
  rw [List.drop_zero, List.drop_zero, List.take_take]
  simp

theorem insertCounterB_clamped : ts_bspline_clamped insertCounterB := by
  constructor
  · exact insertCounterB_valid
  · decide

/-- Claim C5, counterexample: for the valid clamped spline with `deg = 1`,
control points `(-1, 1)` and knots `(0, 0, 1, 1)`, evaluating at
`u = 1 + 2·FLT_MAX_ABS_ERROR` does NOT fail with `U_UNDEFINED` as the claim
states: the relative branch of `ts_fequals` equates `u` with the boundary
knot `1` (relative error `2e-7/(1+2e-7) ≤ 1e-5`), so evaluation succeeds
with code `1` and returns the last control point. -/
theorem C5_boundary_tolerance_counterexample :
    ts_bspline_clamped insertCounterB ∧
    (ts_bspline_evaluate insertCounterB (1 + 2 * FLT_MAX_ABS_ERROR)).1 = 1 ∧
    (ts_bspline_evaluate insertCounterB (1 + 2 * FLT_MAX_ABS_ERROR)).1 ≠
      TS_U_UNDEFINED ∧
    ts_deboornet_result
      (ts_bspline_evaluate insertCounterB (1 + 2 * FLT_MAX_ABS_ERROR)).2 = [1] := by
  refine ⟨insertCounterB_clamped, ?_, ?_, ?_⟩
  · norm_num [ts_bspline_evaluate, insertCounterB, ts_eval_scan, ts_fequals_eval,
      FLT_MAX_ABS_ERROR, FLT_MAX_REL_ERROR]
  · norm_num [ts_bspline_evaluate, insertCounterB, ts_eval_scan, ts_fequals_eval,
      FLT_MAX_ABS_ERROR, FLT_MAX_REL_ERROR, TS_U_UNDEFINED]
  · norm_num [ts_bspline_evaluate, insertCounterB, ts_eval_scan, ts_fequals_eval,
      FLT_MAX_ABS_ERROR, FLT_MAX_REL_ERROR, ts_deboornet_result]

/-- Claim C5 (amended): for every valid clamped BSpline whose interior knots
stay at least `1e-5` away from `1` (`n_ctrlp - deg < 100000`): evaluating at
`u = 1 + 2·FLT_MAX_ABS_ERROR` succeeds with code `1` and returns the last
control point (the claimed `U_UNDEFINED` failure is wrong — `u` is within the
relative tolerance of the boundary knot `1`); the failing boundary is
`1 + 2·FLT_MAX_REL_ERROR`, which fails with `U_UNDEFINED`; and `u = 1`
succeeds with the last control point. -/
theorem C5_boundary_tolerance_amended (b : tsBSpline)
    (hb : ts_bspline_clamped b) (hd : b.n_ctrlp - b.deg < 100000) :
    ((ts_bspline_evaluate b (1 + 2 * FLT_MAX_ABS_ERROR)).1 = 1 ∧
      ts_deboornet_result (ts_bspline_evaluate b (1 + 2 * FLT_MAX_ABS_ERROR)).2 =
        (b.ctrlp.drop ((b.n_ctrlp - 1) * b.dim)).take b.dim) ∧
    ts_bspline_evaluate b (1 + 2 * FLT_MAX_REL_ERROR) =
      (TS_U_UNDEFINED, ts_deboornet_default) ∧
    ((ts_bspline_evaluate b 1).1 = 1 ∧
      ts_deboornet_result (ts_bspline_evaluate b 1).2 =
        (b.ctrlp.drop ((b.n_ctrlp - 1) * b.dim)).take b.dim) := by
  refine ⟨?_, clamped_eval_relfail b hb, clamped_eval_hi b 1 hb hd le_rfl (by norm_num)⟩
  have hu : (1 + 2 * FLT_MAX_ABS_ERROR : ℚ) = 1 + 2/10^7 := by
    norm_num [FLT_MAX_ABS_ERROR]
  rw [hu]
  exact clamped_eval_hi b _ hb hd (by norm_num) le_rfl

theorem C5_boundary_tolerance_amended_witness :
    ((ts_bspline_evaluate insertCounterB (1 + 2 * FLT_MAX_ABS_ERROR)).1 = 1 ∧
      ts_deboornet_result
        (ts_bspline_evaluate insertCounterB (1 + 2 * FLT_MAX_ABS_ERROR)).2 =
        (insertCounterB.ctrlp.drop
          ((insertCounterB.n_ctrlp - 1) * insertCounterB.dim)).take insertCounterB.dim) ∧
    ts_bspline_evaluate insertCounterB (1 + 2 * FLT_MAX_REL_ERROR) =
      (TS_U_UNDEFINED, ts_deboornet_default) ∧
    ((ts_bspline_evaluate insertCounterB 1).1 = 1 ∧
      ts_deboornet_result (ts_bspline_evaluate insertCounterB 1).2 =
        (insertCounterB.ctrlp.drop
          ((insertCounterB.n_ctrlp - 1) * insertCounterB.dim)).take insertCounterB.dim) :=
  C5_boundary_tolerance_amended insertCounterB insertCounterB_clamped
    (by norm_num [insertCounterB])

/-- The clamped spline at the tolerance boundary: `deg = 1` with `100001`
control points, so the interior-knot spacing is exactly `1e-5` and the knot
`99999/100000` is within relative tolerance of `1`. -/
def bigClamped : tsBSpline :=
  { deg := 1, order := 2, dim := 1, n_ctrlp := 100001, n_knots := 100003,
    ctrlp := List.replicate 100001 0,
    knots := ts_knots_setup tsBSplineType.TS_CLAMPED 1 2 100003 [] }

theorem tsBSpline_knots_mk (a b c d e : Nat) (f g : List ℚ) :
    (tsBSpline.mk a b c d e f g).knots = g := rfl

theorem bigClamped_knots_eq :
    bigClamped.knots = ts_knots_setup tsBSplineType.TS_CLAMPED 1 2 100003 [] := by
  unfold bigClamped
  rw [tsBSpline_knots_mk]

theorem bigClamped_deg_eq : bigClamped.deg = 1 := rfl

theorem bigClamped_order_eq : bigClamped.order = 2 := rfl

theorem bigClamped_n_knots_eq : bigClamped.n_knots = 100003 := rfl

theorem bigClamped_clamped : ts_bspline_clamped bigClamped := by
  refine ⟨⟨⟨⟨rfl, rfl, by norm_num [bigClamped], by norm_num [bigClamped]⟩,
    ?_, ?_, by norm_num [bigClamped], by norm_num [bigClamped]⟩,
    ?_⟩, ?_⟩
  · unfold bigClamped
    show (List.replicate 100001 (0:ℚ)).length = 100001 * 1
    rw [List.length_replicate]
  · rw [bigClamped_knots_eq, ts_knots_setup_clamped_length, bigClamped_n_knots_eq]
  · rw [bigClamped_knots_eq]
    exact clamped_knots_sorted 1 100003 [] (by norm_num)
  · rw [bigClamped_knots_eq, bigClamped_deg_eq, bigClamped_order_eq,
      bigClamped_n_knots_eq]

/-- Claim C6, counterexample: endpoint interpolation fails for the valid
clamped spline `bigClamped` (`deg = 1`, `100001` control points): at `u = 1`
the interior knot `99999/100000` is within relative tolerance `1e-5` of `1`,
so the span scan counts multiplicity `s = 3 > order = 2` and
`ts_bspline_evaluate` returns `TS_MULTIPLICITY` instead of succeeding with
code `1` and the last control point. -/
theorem C6_endpoint_interpolation_counterexample :
    ts_bspline_clamped bigClamped ∧
    ts_bspline_evaluate bigClamped 1 = (TS_MULTIPLICITY, ts_deboornet_default) := by
  refine ⟨bigClamped_clamped, ?_⟩
  have hlen : bigClamped.knots.length = 100003 := by
    rw [bigClamped_knots_eq]
    exact ts_knots_setup_clamped_length 1 2 100003 []
  have hl : bigClamped.knots.take bigClamped.n_knots = bigClamped.knots := by
    rw [bigClamped_n_knots_eq, ← hlen]
    exact List.take_length _
  have hallpass : ∀ t ∈ bigClamped.knots, ts_fequals 1 t = true ∨ ¬ (1:ℚ) < t := by
    intro t ht
    rw [bigClamped_knots_eq] at ht
    right
    have hbd := clamped_mem_bounds 1 100003 [] t (by norm_num) ht
    exact not_lt.mpr hbd.2
  have hscan := ts_eval_scan_all_pass 1 bigClamped.knots hallpass
  have hdec := clamped_knots_decomp 1 100003 [] (by norm_num)
  norm_num at hdec
  have hcnt : bigClamped.knots.countP (fun t => ts_fequals 1 t) = 3 := by
    rw [bigClamped_knots_eq]
    rw [hdec]
    rw [List.countP_append, List.countP_append]
    have hz : (List.replicate 2 (0:ℚ)).countP (fun t => ts_fequals 1 t) = 0 := by
      rw [List.countP_eq_zero]
      intro a ha
      rw [List.eq_of_mem_replicate ha]
      have hf : ts_fequals 1 0 = false :=
        ts_fequals_gap 1 0 le_rfl (by norm_num) (by norm_num)
      simp [hf]
    have hone : (List.replicate 2 (1:ℚ)).countP (fun t => ts_fequals 1 t) = 2 := by
      rw [List.countP_eq_length.mpr, List.length_replicate]
      intro a ha
      rw [List.eq_of_mem_replicate ha]
      exact ts_fequals_refl 1
    have hmid : ((List.range 99999).map fun j : Nat =>
        ((j : ℚ) + 1) / 100000).countP
        (fun t => ts_fequals 1 t) = 1 := by
      rw [List.countP_map]
      rw [(by norm_num : (99999 : Nat) = 99998 + 1), List.range_succ]
      rw [List.countP_append]
      have hlast : (List.countP ((fun t => ts_fequals 1 t) ∘ fun j : Nat =>
          ((j : ℚ) + 1) / 100000) [99998]) = 1 := by
        simp only [List.countP_cons, List.countP_nil, Function.comp]
        norm_num [ts_fequals_eval, FLT_MAX_ABS_ERROR, FLT_MAX_REL_ERROR]
      have hrest : (List.countP ((fun t => ts_fequals 1 t) ∘ fun j : Nat =>
          ((j : ℚ) + 1) / 100000) (List.range 99998)) = 0 := by
        rw [List.countP_eq_zero]
        intro j hj
        rw [List.mem_range] at hj
        have hcast : (j : ℚ) ≤ 99997 := by
          exact_mod_cast (by omega : j ≤ 99997)
        have hf : ts_fequals 1 (((j : ℚ) + 1) / 100000) = false := by
          apply ts_fequals_gap
          · exact div_nonneg (add_nonneg (Nat.cast_nonneg j) zero_le_one)
              (by norm_num)
          · norm_num
            linarith
          · norm_num
            linarith
        simp [Function.comp, hf]
      rw [hlast, hrest]
    rw [hz, hone, hmid]
  exact ts_bspline_evaluate_mult bigClamped 1 100003 3
    (by rw [hl, hscan, hlen])
    (by rw [hl, hscan, hcnt])
    (by norm_num)
    (by rw [bigClamped_n_knots_eq]; decide)
    (by rw [bigClamped_deg_eq, bigClamped_n_knots_eq]; decide)
    (by rw [bigClamped_order_eq]; decide)

/-- Claim C6 (amended): endpoint interpolation for clamped splines holds
under the tolerance-safety bound `n_ctrlp - deg < 100000` (interior knots at
least `1e-5` away from the boundary): evaluation at `u = 0` succeeds with
code `1` and returns the first control point, and evaluation at `u = 1`
succeeds with code `1` and returns the last control point. -/
theorem C6_endpoint_interpolation_amended (b : tsBSpline)
    (hb : ts_bspline_clamped b) (hd : b.n_ctrlp - b.deg < 100000) :
    ((ts_bspline_evaluate b 0).1 = 1 ∧
      ts_deboornet_result (ts_bspline_evaluate b 0).2 = b.ctrlp.take b.dim) ∧
    ((ts_bspline_evaluate b 1).1 = 1 ∧
      ts_deboornet_result (ts_bspline_evaluate b 1).2 =
        (b.ctrlp.drop ((b.n_ctrlp - 1) * b.dim)).take b.dim) :=
  ⟨clamped_eval_zero b hb hd, clamped_eval_hi b 1 hb hd le_rfl (by norm_num)⟩

theorem C6_endpoint_interpolation_amended_witness :
    ((ts_bspline_evaluate insertCounterB 0).1 = 1 ∧
      ts_deboornet_result (ts_bspline_evaluate insertCounterB 0).2 =
        insertCounterB.ctrlp.take insertCounterB.dim) ∧
    ((ts_bspline_evaluate insertCounterB 1).1 = 1 ∧
      ts_deboornet_result (ts_bspline_evaluate insertCounterB 1).2 =
        (insertCounterB.ctrlp.drop
          ((insertCounterB.n_ctrlp - 1) * insertCounterB.dim)).take insertCounterB.dim) :=
  C6_endpoint_interpolation_amended insertCounterB insertCounterB_clamped
    (by norm_num [insertCounterB])
